import Mathlib

/-!
# MERN-jobify: the client application context (`client/src/context/appContext.js`)

A shallow embedding of the state-orchestration layer of the job tracker:

* the values the code manipulates (`JSValue`, and `Primitive` where the source handles a
  string-like value), with the two coercions the source relies on (`ToString` inside template
  literals and `localStorage.setItem`, which throws on some objects, and truthiness in
  `a ? b : c` and `a || b`);
* `JSON.stringify` / `JSON.parse` on that value fragment;
* `localStorage` as an ordered key/value list of strings;
* the effects of the provider (`dispatch`, `setTimeout`, HTTP requests) as an explicit `World`
  threaded through a state-and-exception monad `JS`;
* every function of `AppProvider`, translated statement by statement.

An `async` dispatcher is run to completion: the way its network call settles is an argument
(`Settled`), the result is the completion of the returned promise (`Except Thrown Unit`) together
with the world after all its effects.
-/

namespace Jobify

/-! ## Values -/

/-- The fragment of JavaScript values used by the context: `undefined`, `null`, booleans,
integer numbers (no floating point: the model agrees with JavaScript on the safe integers),
strings of Unicode characters (no lone surrogate), arrays and plain objects (own string-keyed
properties in insertion order). -/
inductive JSValue where
  | undefined
  | null
  | bool (b : Bool)
  | num (n : Int)
  | str (s : String)
  | arr (items : List JSValue)
  | obj (fields : List (String × JSValue))
  deriving Repr, Inhabited

/-- An HTTP response as axios presents it: status code, decoded body and headers. -/
structure Response where
  status : Nat
  data : JSValue
  headers : List (String × String)
  deriving Repr, Inhabited

/-- Values that can be thrown, or that reject a promise.  `axiosError r` is the error axios
rejects with: `r` is its `response` property, absent when no response was received (network
failure, timeout).  The two others are the native errors raised by the runtime. -/
inductive Thrown where
  | axiosError (response : Option Response)
  | typeError
  | syntaxError
  deriving Repr, Inhabited

/-- Decimal text of an integer number, as `Number.prototype.toString` prints it. -/
def numText (n : Int) : List Char :=
  match n with
  | Int.ofNat k => Nat.toDigits 10 k
  | Int.negSucc k => '-' :: Nat.toDigits 10 (k + 1)

/-- First value stored under key `k` in an association list. -/
def lookupKey {α : Type} (k : String) : List (String × α) → Option α
  | [] => none
  | (k1, v) :: rest => if k1 = k then some v else lookupKey k rest

/-- Write `v` under `k`: an existing key keeps its position, a new key goes last. -/
def setKey {α : Type} (k : String) (v : α) : List (String × α) → List (String × α)
  | [] => [(k, v)]
  | (k1, v1) :: rest => if k1 = k then (k1, v) :: rest else (k1, v1) :: setKey k v rest

/-- Remove every entry stored under `k`. -/
def removeKey {α : Type} (k : String) : List (String × α) → List (String × α)
  | [] => []
  | (k1, v1) :: rest => if k1 = k then removeKey k rest else (k1, v1) :: removeKey k rest

/-- The primitive values.  The places where the source holds a string or the absence of one
(what `localStorage.getItem` returns, a response header, the token and the locations of the
state, the `endpoint` of `setupUser`, the `id` of `deleteJob`) range over them. -/
inductive Primitive where
  | undefined
  | null
  | bool (b : Bool)
  | num (n : Int)
  | str (s : String)
  deriving DecidableEq, Repr, Inhabited

/-- A primitive as a value. -/
def Primitive.val : Primitive → JSValue
  | .undefined => .undefined
  | .null => .null
  | .bool b => .bool b
  | .num n => .num n
  | .str s => .str s

/-- The abstract operation `ToString` on a primitive: it cannot throw. -/
def Primitive.toStr : Primitive → String
  | .undefined => "undefined"
  | .null => "null"
  | .bool b => if b then "true" else "false"
  | .num n => String.mk (numText n)
  | .str s => s

/-- The abstract operation `ToBoolean` on a primitive. -/
def Primitive.truthy : Primitive → Bool
  | .undefined => false
  | .null => false
  | .bool b => b
  | .num n => n != 0
  | .str s => s != ""

mutual
/-- Text produced by the abstract operation `ToString`, `none` when it throws a `TypeError`.
An object is converted by its `toString` method: the one of `Object.prototype` answers
`[object Object]`, while an own property named `toString` hides it, and as no value of this
model is callable the conversion then fails (`valueOf` returns the object itself).  An array is
converted by `join`. -/
def toStrChars : JSValue → Option (List Char)
  | .undefined => some "undefined".toList
  | .null => some "null".toList
  | .bool b => some (if b then "true".toList else "false".toList)
  | .num n => some (numText n)
  | .str s => some s.toList
  | .arr xs => joinChars xs
  | .obj fs =>
    if (lookupKey "toString" fs).isSome then none else some "[object Object]".toList
/-- Text of `Array.prototype.join(',')`: `undefined` and `null` elements print as nothing, the
others are converted by `ToString`. -/
def joinChars : List JSValue → Option (List Char)
  | [] => some []
  | [x] => elemChars x
  | x :: y :: xs =>
    match elemChars x, joinChars (y :: xs) with
    | some a, some b => some (a ++ ',' :: b)
    | _, _ => none
/-- Text of one array element inside `join`. -/
def elemChars : JSValue → Option (List Char)
  | .undefined => some []
  | .null => some []
  | .bool b => some (if b then "true".toList else "false".toList)
  | .num n => some (numText n)
  | .str s => some s.toList
  | .arr xs => joinChars xs
  | .obj fs =>
    if (lookupKey "toString" fs).isSome then none else some "[object Object]".toList
end

/-- The abstract operation `ToString`, used by template literals and by `setItem`: the text, or
a `TypeError`. -/
def toStr (v : JSValue) : Except Thrown String :=
  match toStrChars v with
  | some cs => .ok (String.mk cs)
  | none => .error .typeError

mutual
/-- The values `ToString` converts without throwing: no object with an own `toString`
property, directly or inside an array. -/
def printable : JSValue → Bool
  | .arr xs => allPrintable xs
  | .obj fs => (lookupKey "toString" fs).isNone
  | _ => true
/-- All elements are printable. -/
def allPrintable : List JSValue → Bool
  | [] => true
  | x :: xs => printable x && allPrintable xs
end

/-- Property read `v.k` (also the read done by destructuring): a `TypeError` on `undefined` and
`null`, the own property of an object, `undefined` otherwise.  None of the names the source
reads is a built-in property of a string, number, boolean or array. -/
def JSValue.get (v : JSValue) (k : String) : Except Thrown JSValue :=
  match v with
  | .undefined => .error .typeError
  | .null => .error .typeError
  | .obj fs => .ok ((lookupKey k fs).getD .undefined)
  | _ => .ok .undefined

/-! ## JSON -/

/-- One hexadecimal digit, lower case. -/
def hexDigit (n : Nat) : Char :=
  if n < 10 then Char.ofNat (48 + n) else Char.ofNat (87 + n)

/-- Text of one character inside a JSON string literal (`QuoteJSONString`). -/
def escapeChar (c : Char) : List Char :=
  if c = Char.ofNat 34 then [Char.ofNat 92, Char.ofNat 34]
  else if c = Char.ofNat 92 then [Char.ofNat 92, Char.ofNat 92]
  else if c = Char.ofNat 8 then [Char.ofNat 92, 'b']
  else if c = Char.ofNat 12 then [Char.ofNat 92, 'f']
  else if c = Char.ofNat 10 then [Char.ofNat 92, 'n']
  else if c = Char.ofNat 13 then [Char.ofNat 92, 'r']
  else if c = Char.ofNat 9 then [Char.ofNat 92, 't']
  else if c.toNat < 32 then
    [Char.ofNat 92, 'u', '0', '0', hexDigit (c.toNat / 16), hexDigit (c.toNat % 16)]
  else [c]

/-- Escaped body of a JSON string literal, without the surrounding quotes. -/
def escapeChars : List Char → List Char
  | [] => []
  | c :: cs => escapeChar c ++ escapeChars cs

/-- A JSON string literal. -/
def quoteJSON (s : String) : List Char :=
  Char.ofNat 34 :: (escapeChars s.toList ++ [Char.ofNat 34])

/-- Comma-separated concatenation. -/
def commaSep : List (List Char) → List Char
  | [] => []
  | [x] => x
  | x :: y :: xs => x ++ ',' :: commaSep (y :: xs)

mutual
/-- Text of `JSON.stringify(v)` without indentation; `none` when the result is `undefined`. -/
def serialize : JSValue → Option (List Char)
  | .undefined => none
  | .null => some "null".toList
  | .bool b => some (if b then "true".toList else "false".toList)
  | .num n => some (numText n)
  | .str s => some (quoteJSON s)
  | .arr xs => some ('[' :: (commaSep (serializeElems xs) ++ [']']))
  | .obj fs => some (Char.ofNat 123 :: (commaSep (serializeFields fs) ++ [Char.ofNat 125]))
/-- Texts of the elements of an array: an `undefined` element is written `null`. -/
def serializeElems : List JSValue → List (List Char)
  | [] => []
  | x :: xs => (serialize x).getD "null".toList :: serializeElems xs
/-- Texts of the members of an object: a member whose value is `undefined` is left out. -/
def serializeFields : List (String × JSValue) → List (List Char)
  | [] => []
  | (k, v) :: rest =>
    match serialize v with
    | none => serializeFields rest
    | some t => (quoteJSON k ++ ':' :: t) :: serializeFields rest
end

/-- The call `JSON.stringify(v)`: a string, or `undefined`. -/
def JSON.stringify (v : JSValue) : JSValue :=
  match serialize v with
  | none => .undefined
  | some t => .str (String.mk t)

/-- JSON white space. -/
def isWs (c : Char) : Bool :=
  c = ' ' || c = Char.ofNat 9 || c = Char.ofNat 10 || c = Char.ofNat 13

/-- Drop leading white space. -/
def skipWs : List Char → List Char
  | [] => []
  | c :: cs => if isWs c then skipWs cs else c :: cs

/-- Value of a hexadecimal digit. -/
def hexVal (c : Char) : Option Nat :=
  if 48 ≤ c.toNat ∧ c.toNat ≤ 57 then some (c.toNat - 48)
  else if 97 ≤ c.toNat ∧ c.toNat ≤ 102 then some (c.toNat - 87)
  else if 65 ≤ c.toNat ∧ c.toNat ≤ 70 then some (c.toNat - 55)
  else none

/-- Value of four hexadecimal digits. -/
def hex4 (a b c d : Char) : Option Nat :=
  match hexVal a, hexVal b, hexVal c, hexVal d with
  | some x, some y, some z, some w => some (((x * 16 + y) * 16 + z) * 16 + w)
  | _, _, _, _ => none

/-- The character denoted by a one-letter escape. -/
def simpleEscape (e : Char) : Option Char :=
  if e = Char.ofNat 34 then some (Char.ofNat 34)
  else if e = Char.ofNat 92 then some (Char.ofNat 92)
  else if e = '/' then some '/'
  else if e = 'b' then some (Char.ofNat 8)
  else if e = 'f' then some (Char.ofNat 12)
  else if e = 'n' then some (Char.ofNat 10)
  else if e = 'r' then some (Char.ofNat 13)
  else if e = 't' then some (Char.ofNat 9)
  else none

/-- The second half of a surrogate pair, after a high surrogate `n`: a `\u` escape holding a
low surrogate. -/
def parseLowSurrogate (n : Nat) : List Char → Option (Char × List Char)
  | b :: u :: l1 :: l2 :: l3 :: l4 :: r =>
    if b = Char.ofNat 92 ∧ u = 'u' then
      match hex4 l1 l2 l3 l4 with
      | none => none
      | some m =>
        if 56320 ≤ m ∧ m < 57344 then
          some (Char.ofNat (65536 + (n - 55296) * 1024 + (m - 56320)), r)
        else none
    else none
  | _ => none

/-- The four digits of a `\u` escape.  They denote a UTF-16 code unit: a surrogate pair is
combined into one character, a lone surrogate has no counterpart among the characters of this
model and is refused. -/
def parseUnicode : List Char → Option (Char × List Char)
  | h1 :: h2 :: h3 :: h4 :: r =>
    match hex4 h1 h2 h3 h4 with
    | none => none
    | some n =>
      if n < 55296 ∨ 57344 ≤ n then some (Char.ofNat n, r)
      else if n < 56320 then parseLowSurrogate n r
      else none
  | _ => none

/-- An escape sequence, after its backslash: the character it denotes and the rest of the
input. -/
def parseEscape : List Char → Option (Char × List Char)
  | [] => none
  | e :: r =>
    if e = 'u' then parseUnicode r
    else
      match simpleEscape e with
      | none => none
      | some d => some (d, r)

/-- Body of a string literal, after its opening quote: the decoded characters and the rest of
the input after the closing quote.  The fuel bounds the number of characters decoded. -/
def parseStringAux : Nat → List Char → Option (List Char × List Char)
  | 0, _ => none
  | _ + 1, [] => none
  | fuel + 1, c :: cs =>
    if c = Char.ofNat 34 then some ([], cs)
    else if c = Char.ofNat 92 then
      match parseEscape cs with
      | none => none
      | some (d, r) => (parseStringAux fuel r).map (fun p => (d :: p.1, p.2))
    else if c.toNat < 32 then none
    else (parseStringAux fuel cs).map (fun p => (c :: p.1, p.2))

/-- Body of a string literal, with fuel for the whole input. -/
def parseString (cs : List Char) : Option (List Char × List Char) :=
  parseStringAux cs.length cs

/-- Value of a decimal digit. -/
def digitVal (c : Char) : Option Nat :=
  if 48 ≤ c.toNat ∧ c.toNat ≤ 57 then some (c.toNat - 48) else none

/-- Read a maximal run of decimal digits, accumulating its value. -/
def parseDigits : Nat → List Char → Nat × List Char
  | acc, [] => (acc, [])
  | acc, c :: cs =>
    match digitVal c with
    | some d => parseDigits (acc * 10 + d) cs
    | none => (acc, c :: cs)

/-- Whether the input continues a number literal with a fraction or an exponent. -/
def startsFraction : List Char → Bool
  | [] => false
  | c :: _ => c = '.' || c = 'e' || c = 'E'

/-- A natural-number literal: `0`, or a non-zero digit followed by digits.  Literals with a
fraction or an exponent denote floating-point values and are not part of the fragment. -/
def parseNat : List Char → Option (Nat × List Char)
  | [] => none
  | c :: cs =>
    match digitVal c with
    | none => none
    | some 0 =>
      match cs with
      | [] => some (0, [])
      | c1 :: r => if (digitVal c1).isSome || startsFraction (c1 :: r) then none else some (0, c1 :: r)
    | some (d + 1) =>
      let p := parseDigits (d + 1) cs
      if startsFraction p.2 then none else some p

/-- A number literal with its optional sign. -/
def parseNumber : List Char → Option (JSValue × List Char)
  | [] => none
  | c :: cs =>
    if c = '-' then (parseNat cs).map (fun p => (.num (-(p.1 : Int)), p.2))
    else (parseNat (c :: cs)).map (fun p => (.num (p.1 : Int), p.2))

/-- Drop the characters of `lit` from the front of the input, if they are there. -/
def dropLiteral : List Char → List Char → Option (List Char)
  | [], cs => some cs
  | _ :: _, [] => none
  | p :: ps, c :: cs => if p = c then dropLiteral ps cs else none

/-- A value that is not an array or an object: `null`, `true`, `false`, a string or a number. -/
def parseScalar : List Char → Option (JSValue × List Char)
  | [] => none
  | c :: r =>
    if c = 'n' then (dropLiteral ['u', 'l', 'l'] r).map (fun r1 => (.null, r1))
    else if c = 't' then (dropLiteral ['r', 'u', 'e'] r).map (fun r1 => (.bool true, r1))
    else if c = 'f' then (dropLiteral ['a', 'l', 's', 'e'] r).map (fun r1 => (.bool false, r1))
    else if c = Char.ofNat 34 then (parseString r).map (fun p => (.str (String.mk p.1), p.2))
    else parseNumber (c :: r)

/-- The members read after a member `k : v`: a repeated key overwrites the value of its first
occurrence, which keeps its position. -/
def addMember (k : String) (v : JSValue) (later : List (String × JSValue)) :
    List (String × JSValue) :=
  (k, (lookupKey k later).getD v) :: removeKey k later

mutual
/-- One JSON value, leading white space allowed; the fuel bounds the number of values read. -/
def parseValue : Nat → List Char → Option (JSValue × List Char)
  | 0, _ => none
  | fuel + 1, cs =>
    match skipWs cs with
    | [] => none
    | c :: r =>
      if c = '[' then
        match skipWs r with
        | [] => none
        | c1 :: r1 =>
          if c1 = ']' then some (.arr [], r1)
          else (parseElems fuel (c1 :: r1)).map (fun p => (.arr p.1, p.2))
      else if c = Char.ofNat 123 then
        match skipWs r with
        | [] => none
        | c1 :: r1 =>
          if c1 = Char.ofNat 125 then some (.obj [], r1)
          else (parseMembers fuel (c1 :: r1)).map (fun p => (.obj p.1, p.2))
      else parseScalar (c :: r)
/-- The elements of a non-empty array, up to and including the closing bracket. -/
def parseElems : Nat → List Char → Option (List JSValue × List Char)
  | 0, _ => none
  | fuel + 1, cs =>
    match parseValue fuel cs with
    | none => none
    | some (v, r) =>
      match skipWs r with
      | [] => none
      | c :: r1 =>
        if c = ',' then (parseElems fuel r1).map (fun p => (v :: p.1, p.2))
        else if c = ']' then some ([v], r1)
        else none
/-- The members of a non-empty object, up to and including the closing brace. -/
def parseMembers : Nat → List Char → Option (List (String × JSValue) × List Char)
  | 0, _ => none
  | fuel + 1, cs =>
    match skipWs cs with
    | [] => none
    | q :: r =>
      if q = Char.ofNat 34 then
        match parseString r with
        | none => none
        | some (k, r1) =>
          match skipWs r1 with
          | [] => none
          | c :: r2 =>
            if c = ':' then
              match parseValue fuel r2 with
              | none => none
              | some (v, r3) =>
                match skipWs r3 with
                | [] => none
                | c1 :: r4 =>
                  if c1 = ',' then
                    (parseMembers fuel r4).map (fun p => (addMember (String.mk k) v p.1, p.2))
                  else if c1 = Char.ofNat 125 then some ([(String.mk k, v)], r4)
                  else none
            else none
      else none
end

/-- The call `JSON.parse(text)` on a string: the value, or a `SyntaxError`.  The fuel covers the
whole text, as every value read consumes at least one character.  The model is exact on the
JSON texts whose numbers are safe integers written without fraction or exponent and whose
strings have no lone-surrogate escape; the other texts that the runtime accepts are outside the
fragment (the model refuses them, or keeps a large integer exact).  The properties below either
hold whatever `JSON.parse` answers or read through it only what `JSON.stringify` wrote. -/
def JSON.parse (text : String) : Except Thrown JSValue :=
  match parseValue (text.length + 1) text.toList with
  | none => .error .syntaxError
  | some (v, rest) =>
    match skipWs rest with
    | [] => .ok v
    | _ :: _ => .error .syntaxError

/-! ## Effects -/

/-- The action tags of `./actions` (`OtherActions`, `UserActions`, `JobsAction`) that the
context refers to; the tags are distinct constants. -/
inductive ActionType where
  | DISPLAY_ALERT | HIDE_ALERT | TOGGLE_SIDEBAR | HANDLE_CHANGE | CLEAR_VALUES | SET_EDIT_JOB
  | SHOW_STATS_BEGIN | SHOW_STATS_SUCCESS | CLEAR_FILTERS | CHANGE_PAGE
  | USER_OPERATION_BEGIN | USER_OPERATION_SUCCESS | USER_OPERATION_ERROR | LOGOUT_USER
  | USER_UPDATE_BEGIN | USER_UPDATE_SUCCESS | USER_UPDATE_ERROR
  | CREATE_JOB_BEGIN | CREATE_JOB_SUCCESS | CREATE_JOB_ERROR
  | GET_JOBS_BEGIN | GET_JOBS_SUCCESS
  | EDIT_JOB_BEGIN | EDIT_JOB_SUCCESS | EDIT_JOB_ERROR
  | DELETE_JOB_BEGIN
  deriving DecidableEq, Repr, Inhabited

/-- An action object `{ type, payload }`; `payload` is `undefined` when the literal has none. -/
structure Action where
  type : ActionType
  payload : JSValue
  deriving Repr, Inhabited

/-- An HTTP request handed to the network. -/
structure Request where
  method : String
  baseURL : String
  url : String
  data : JSValue
  authorization : Option String
  deriving Repr, Inhabited

/-- How the network settles a request, before any interceptor runs. -/
inductive Settled where
  | fulfilled (response : Response)
  | rejected (error : Thrown)
  deriving Repr, Inhabited

/-- The content of `localStorage`: string values under string keys. -/
abbrev Storage := List (String × String)

/-- The call `localStorage.getItem(k)`: the stored string, or `null`. -/
def Storage.getItem (ls : Storage) (k : String) : Primitive :=
  match lookupKey k ls with
  | some s => .str s
  | none => .null

/-- The call `localStorage.setItem(k, v)` on the content, `v` already converted to a string. -/
def Storage.setItem (ls : Storage) (k : String) (v : String) : Storage :=
  setKey k v ls

/-- The call `localStorage.removeItem(k)` on the content. -/
def Storage.removeItem (ls : Storage) (k : String) : Storage :=
  removeKey k ls

/-- Everything the provider acts upon: the persistent storage, the actions handed to `dispatch`
(in order), the callbacks registered with `setTimeout` (delay in ms and the action the callback
dispatches) and the requests sent. -/
structure World where
  localStorage : Storage
  dispatched : List Action
  timers : List (Nat × Action)
  requests : List Request
  deriving Repr, Inhabited

/-- A computation with effects on the world that completes normally or throws.  Effects made
before a throw persist. -/
def JS (α : Type) : Type := World → Except Thrown α × World

instance : Monad JS where
  pure a := fun w => (.ok a, w)
  bind m f := fun w =>
    match m w with
    | (.ok a, w1) => f a w1
    | (.error e, w1) => (.error e, w1)

/-- The statement `throw e`. -/
def throwJS {α : Type} (e : Thrown) : JS α := fun w => (.error e, w)

/-- The statement `try body catch (error) handler finally fin`.  A `return` inside the handler
ends the handler only: the `finally` block still runs (no statement follows the `try` statement
in any function of the provider). -/
def tryCatchFinally (body : JS Unit) (handler : Thrown → JS Unit) (fin : JS Unit) : JS Unit :=
  fun w =>
    let r :=
      match body w with
      | (.ok a, w1) => (Except.ok a, w1)
      | (.error e, w1) => handler e w1
    match fin r.2 with
    | (.ok _, w2) => (r.1, w2)
    | (.error e, w2) => (.error e, w2)

/-- The statement `try body catch (error) handler`. -/
def tryCatch (body : JS Unit) (handler : Thrown → JS Unit) : JS Unit :=
  fun w =>
    match body w with
    | (.ok a, w1) => (.ok a, w1)
    | (.error e, w1) => handler e w1

/-- A call of an `async` function whose promise is dropped: its effects take place, the caller
does not observe how it completes. -/
def detached (m : JS Unit) : JS Unit := fun w => (.ok (), (m w).2)

/-- The call `dispatch(a)`. -/
def dispatch (a : Action) : JS Unit :=
  fun w => (.ok (), { w with dispatched := w.dispatched ++ [a] })

/-- The call `setTimeout(() => dispatch(a), ms)`. -/
def setTimeoutDispatch (a : Action) (ms : Nat) : JS Unit :=
  fun w => (.ok (), { w with timers := w.timers ++ [(ms, a)] })

/-- A pure evaluation inside a computation: its value, or the error it throws. -/
def liftExcept {α : Type} (r : Except Thrown α) : JS α := fun w => (r, w)

/-- The conversion of a value to a string inside a template literal. -/
def toStringJS (v : JSValue) : JS String := liftExcept (toStr v)

/-- The call `localStorage.setItem(k, v)`: the value is converted to a string first, which may
throw. -/
def setItem (k : String) (v : JSValue) : JS Unit :=
  fun w =>
    match toStr v with
    | .ok s => (.ok (), { w with localStorage := w.localStorage.setItem k s })
    | .error e => (.error e, w)

/-- The call `localStorage.removeItem(k)`. -/
def removeItem (k : String) : JS Unit :=
  fun w => (.ok (), { w with localStorage := w.localStorage.removeItem k })

/-- Property read `v.k` inside a computation. -/
def getProp (v : JSValue) (k : String) : JS JSValue := liftExcept (v.get k)

/-- The expression `JSON.parse(v)`: the argument is converted to a string first. -/
def jsonParse (v : Primitive) : JS JSValue := liftExcept (JSON.parse v.toStr)

/-- The expression `response.headers[name]`. -/
def Response.header (r : Response) (name : String) : Primitive :=
  match lookupKey name r.headers with
  | some s => .str s
  | none => .undefined

/-- The expression `error.response`, `none` standing for `undefined`. -/
def Thrown.response : Thrown → Option Response
  | .axiosError r => r
  | .typeError => none
  | .syntaxError => none

/-- The expression `error.response.status`. -/
def errorStatus (error : Thrown) : JS Nat :=
  match error.response with
  | none => throwJS .typeError
  | some r => pure r.status

/-- The expression `error.response.data.message`. -/
def errorMessage (error : Thrown) : JS JSValue :=
  match error.response with
  | none => throwJS .typeError
  | some r => getProp r.data "message"

/-! ## The initial state -/

/-- The state tree of the reducer. -/
structure AppState where
  isLoading : Bool
  showAlert : Bool
  alertText : String
  alertType : String
  user : JSValue
  token : Primitive
  userLocation : Primitive
  showSidebar : Bool
  jobLocation : Primitive
  isEditing : Bool
  editJobId : String
  position : String
  company : String
  jobTypeOptions : List String
  jobType : String
  statusOptions : List String
  status : String
  jobs : List JSValue
  totalJobs : Nat
  statistics : JSValue
  monthlyApplications : List JSValue
  search : String
  filterByStatus : String
  filterByJobType : String
  sort : String
  sortOptions : List String
  numOfPages : Nat
  page : Nat
  deriving Repr, Inhabited

/-- The expression `a || b`. -/
def jsOr (a b : Primitive) : Primitive := if a.truthy then a else b

/-- The object literal of `initialState`, given the values of its three computed entries. -/
def stateLiteral (user : JSValue) (token location : Primitive) : AppState :=
  { isLoading := false
    showAlert := false
    alertText := ""
    alertType := ""
    user := user
    token := token
    userLocation := jsOr location (.str "")
    showSidebar := false
    jobLocation := jsOr location (.str "")
    isEditing := false
    editJobId := ""
    position := ""
    company := ""
    jobTypeOptions := ["full-time", "part-time", "remote", "internship"]
    jobType := "full-time"
    statusOptions := ["pending", "interview", "declined"]
    status := "pending"
    jobs := []
    totalJobs := 0
    statistics := .obj []
    monthlyApplications := []
    search := ""
    filterByStatus := "all"
    filterByJobType := "all"
    sort := "latest"
    sortOptions := ["latest", "oldest", "a-z", "z-a"]
    numOfPages := 1
    page := 1 }

/-- The module-level constant `initialState`, computed from the storage found at load time:
`user ? JSON.parse(user) : null`, `token` and `location || ''`.  Evaluating the object literal
throws when `JSON.parse` does; the function `parse` stands for `JSON.parse`. -/
def initialStateWith (parse : String → Except Thrown JSValue) (ls : Storage) :
    Except Thrown AppState :=
  let user := ls.getItem "user"
  let token := ls.getItem "token"
  let location := ls.getItem "location"
  match (if user.truthy then parse user.toStr else .ok .null) with
  | .error e => .error e
  | .ok parsedUser => .ok (stateLiteral parsedUser token location)

/-- The constant `initialState` with the modelled `JSON.parse`. -/
def initialState (ls : Storage) : Except Thrown AppState :=
  initialStateWith JSON.parse ls

/-! ## The provider -/

/-- Schedules the dispatch of `HIDE_ALERT` after 3000 ms. -/
def hideAlert : JS Unit :=
  setTimeoutDispatch ⟨.HIDE_ALERT, .undefined⟩ 3000

/-- Shows the alert and arms its removal. -/
def displayAlert : JS Unit := do
  dispatch ⟨.DISPLAY_ALERT, .undefined⟩
  hideAlert

/-- Writes the three session entries; the argument is destructured as
`{ user, token, location }`. -/
def addUserToLocalStorage (payload : JSValue) : JS Unit := do
  let user ← getProp payload "user"
  let token ← getProp payload "token"
  let location ← getProp payload "location"
  setItem "user" (JSON.stringify user)
  setItem "token" token
  setItem "location" location

/-- Removes the three session entries. -/
def removeUserFromLocalStorage : JS Unit := do
  removeItem "user"
  removeItem "token"
  removeItem "location"

/-- Dispatches `LOGOUT_USER` and clears the persisted session. -/
def logoutUser : JS Unit := do
  dispatch ⟨.LOGOUT_USER, .undefined⟩
  removeUserFromLocalStorage

/-- The call `axios.post(url, data)` on the default instance, awaited: no interceptor. -/
def axiosPost (url : String) (data : JSValue) (net : Settled) : JS Response :=
  fun w =>
    let w1 := { w with requests := w.requests ++ [⟨"POST", "", url, data, none⟩] }
    match net with
    | .fulfilled r => (.ok r, w1)
    | .rejected e => (.error e, w1)

/-- The rejection handler of the response interceptor of `authFetch`. -/
def responseInterceptorError (error : Thrown) : JS Response := do
  let status ← errorStatus error
  (if status = 401 then logoutUser else pure ())
  throwJS error

/-- A call `authFetch.method(url, data)`, awaited: the request interceptor adds the bearer token
of the current state, the request is sent, and the response interceptor passes a response
through and handles a rejection.  The rejection handler of the request interceptor only rejects
again with the error it is given. -/
def authFetch (state : AppState) (method url : String) (data : JSValue) (net : Settled) :
    JS Response := do
  let authorization := "Bearer " ++ state.token.toStr
  (fun w => (.ok (), { w with requests :=
    w.requests ++ [⟨method, "/api/v1", url, data, some authorization⟩] }))
  match net with
  | .fulfilled r => pure r
  | .rejected e => responseInterceptorError e

/-- Registers or logs in a user. -/
def setupUser (currentUser : JSValue) (endpoint : Primitive) (alertText : JSValue)
    (net : Settled) : JS Unit := do
  dispatch ⟨.USER_OPERATION_BEGIN, .undefined⟩
  tryCatchFinally
    (do
      let response ← axiosPost ("/api/v1/" ++ endpoint.toStr) currentUser net
      let user ← jsonParse (response.header "user")
      let payload := JSValue.obj [("user", user), ("token", (response.header "token").val),
        ("location", .str ""), ("alertText", alertText)]
      dispatch ⟨.USER_OPERATION_SUCCESS, payload⟩
      addUserToLocalStorage payload)
    (fun error => do
      let message ← errorMessage error
      let msg ← toStringJS message
      dispatch ⟨.USER_OPERATION_ERROR, .obj [("msg", .str msg)]⟩)
    hideAlert

/-- Updates the profile of the current user. -/
def updateUser (state : AppState) (currentUser : JSValue) (net : Settled) : JS Unit := do
  dispatch ⟨.USER_UPDATE_BEGIN, .undefined⟩
  tryCatchFinally
    (do
      let response ← authFetch state "PATCH" "updateUser" currentUser net
      let user ← jsonParse (response.header "user")
      let token := (response.header "token").val
      let user2 ← jsonParse (response.header "user")
      let location ← getProp user2 "location"
      let payload := JSValue.obj [("user", user), ("token", token), ("location", location)]
      dispatch ⟨.USER_UPDATE_SUCCESS, payload⟩
      addUserToLocalStorage payload)
    (fun error => do
      let status ← errorStatus error
      if status ≠ 401 then do
        let message ← errorMessage error
        let msg ← toStringJS message
        dispatch ⟨.USER_UPDATE_ERROR, .obj [("msg", .str msg)]⟩
      else
        pure ())
    hideAlert

/-- Flips the sidebar. -/
def toggleSidebar : JS Unit :=
  dispatch ⟨.TOGGLE_SIDEBAR, .undefined⟩

/-- Edits one form field. -/
def handleChange (name value : JSValue) : JS Unit :=
  dispatch ⟨.HANDLE_CHANGE, .obj [("name", name), ("value", value)]⟩

/-- Resets the job form. -/
def clearValues : JS Unit :=
  dispatch ⟨.CLEAR_VALUES, .undefined⟩

/-- Creates a job. -/
def createJob (state : AppState) (job : JSValue) (net : Settled) : JS Unit := do
  dispatch ⟨.CREATE_JOB_BEGIN, .undefined⟩
  tryCatchFinally
    (do
      let _ ← authFetch state "POST" "/jobs" job net
      dispatch ⟨.CREATE_JOB_SUCCESS, .undefined⟩
      dispatch ⟨.CLEAR_VALUES, .undefined⟩)
    (fun error => do
      let status ← errorStatus error
      if status = 401 then
        pure () -- `return;`
      else do
        let message ← errorMessage error
        let msg ← toStringJS message
        dispatch ⟨.CREATE_JOB_ERROR, .obj [("msg", .str msg)]⟩)
    hideAlert

/-- The URL `getJobs` requests, built from the current state; `if (search)` tests that the
search text is not empty. -/
def getJobsUrl (state : AppState) : String :=
  let limitDefaultValue : Nat := 10
  let url := "/jobs?limit=" ++ toString limitDefaultValue ++ "&page=" ++ toString state.page ++
    "&status=" ++ state.filterByStatus ++ "&jobType=" ++ state.filterByJobType ++
    "&sort=" ++ state.sort
  if state.search ≠ "" then url ++ "&search=" ++ state.search else url

/-- Fetches the page of jobs selected by the filters of the current state. -/
def getJobs (state : AppState) (net : Settled) : JS Unit := do
  let url := getJobsUrl state
  dispatch ⟨.GET_JOBS_BEGIN, .undefined⟩
  tryCatchFinally
    (do
      let response ← authFetch state "GET" url .undefined net
      let jobs ← getProp response.data "result"
      let totalJobs ← getProp response.data "total"
      let numOfPages ← getProp response.data "numOfPages"
      dispatch ⟨.GET_JOBS_SUCCESS,
        .obj [("jobs", jobs), ("totalJobs", totalJobs), ("numOfPages", numOfPages)]⟩)
    (fun _ => logoutUser)
    hideAlert

/-- Switches to the job form, editing job `id`. -/
def setEditJob (id : JSValue) : JS Unit :=
  dispatch ⟨.SET_EDIT_JOB, .obj [("id", id)]⟩

/-- Saves the job being edited. -/
def editJob (state : AppState) (job : JSValue) (net : Settled) : JS Unit := do
  dispatch ⟨.EDIT_JOB_BEGIN, .undefined⟩
  tryCatchFinally
    (do
      let _ ← authFetch state "PATCH" ("/jobs/" ++ state.editJobId) job net
      dispatch ⟨.EDIT_JOB_SUCCESS, .undefined⟩
      dispatch ⟨.CLEAR_VALUES, .undefined⟩)
    (fun error => do
      let status ← errorStatus error
      if status = 401 then
        pure () -- `return;`
      else do
        let message ← errorMessage error
        let msg ← toStringJS message
        dispatch ⟨.EDIT_JOB_ERROR, .obj [("msg", .str msg)]⟩)
    hideAlert

/-- Deletes job `id`, then refetches the list; `netJobs` settles the request of that `getJobs`,
whose promise is not awaited. -/
def deleteJob (state : AppState) (id : Primitive) (net netJobs : Settled) : JS Unit := do
  dispatch ⟨.DELETE_JOB_BEGIN, .undefined⟩
  tryCatch
    (do
      let _ ← authFetch state "DELETE" ("/jobs/" ++ id.toStr) .undefined net
      detached (getJobs state netJobs))
    (fun _ => logoutUser)

/-- Fetches the statistics. -/
def getStatistics (state : AppState) (net : Settled) : JS Unit := do
  dispatch ⟨.SHOW_STATS_BEGIN, .undefined⟩
  tryCatchFinally
    (do
      let response ← authFetch state "GET" "/jobs/stats" .undefined net
      let statistics ← getProp response.data "statistics"
      let monthlyApplications ← getProp response.data "monthlyApplications"
      dispatch ⟨.SHOW_STATS_SUCCESS,
        .obj [("statistics", statistics), ("monthlyApplications", monthlyApplications)]⟩)
    (fun _ => logoutUser)
    hideAlert

/-- Resets the filters. -/
def clearFilters : JS Unit :=
  dispatch ⟨.CLEAR_FILTERS, .undefined⟩

/-- Selects a page. -/
def changePage (page : JSValue) : JS Unit :=
  dispatch ⟨.CHANGE_PAGE, .obj [("page", page)]⟩

/-! ## Runs -/

/-- The asynchronous dispatchers of the provider, each with the arguments of one call. -/
inductive Dispatcher where
  | setupUser (currentUser : JSValue) (endpoint : Primitive) (alertText : JSValue)
  | updateUser (currentUser : JSValue)
  | createJob (job : JSValue)
  | editJob (job : JSValue)
  | getJobs
  | deleteJob (id : Primitive) (netJobs : Settled)
  | getStatistics
  deriving Repr, Inhabited

/-- One call of a dispatcher, in the render whose state is `state`, its request settling as
`net`. -/
def Dispatcher.run (state : AppState) (net : Settled) : Dispatcher → JS Unit
  | .setupUser currentUser endpoint alertText => Jobify.setupUser currentUser endpoint alertText net
  | .updateUser currentUser => Jobify.updateUser state currentUser net
  | .createJob job => Jobify.createJob state job net
  | .editJob job => Jobify.editJob state job net
  | .getJobs => Jobify.getJobs state net
  | .deleteJob id netJobs => Jobify.deleteJob state id net netJobs
  | .getStatistics => Jobify.getStatistics state net

/-- The dispatchers that go through `authFetch`. -/
def Dispatcher.authenticated : Dispatcher → Bool
  | .setupUser _ _ _ => false
  | _ => true

/-- The actions a computation started in `w` hands to `dispatch`. -/
def dispatchedBy {α : Type} (m : JS α) (w : World) : List Action :=
  (m w).2.dispatched.drop w.dispatched.length

/-- The timers a computation started in `w` registers. -/
def timersBy {α : Type} (m : JS α) (w : World) : List (Nat × Action) :=
  (m w).2.timers.drop w.timers.length

/-- The requests a computation started in `w` sends. -/
def requestsBy {α : Type} (m : JS α) (w : World) : List Request :=
  (m w).2.requests.drop w.requests.length

/-- Whether an action with tag `t` occurs in a list of actions. -/
def hasType (t : ActionType) (as : List Action) : Bool :=
  as.any (fun a => decide (a.type = t))

/-- Number of actions with tag `t` in a list of actions. -/
def countType (t : ActionType) (as : List Action) : Nat :=
  (as.filter (fun a => decide (a.type = t))).length

/-- Whether a list of timers holds the auto-clear of the alert: `HIDE_ALERT` after 3000 ms. -/
def armsHideAlert (ts : List (Nat × Action)) : Bool :=
  ts.any (fun t => decide (t.1 = 3000) && decide (t.2.type = ActionType.HIDE_ALERT))

/-- Whether a run completed without throwing. -/
def completed {α : Type} : Except Thrown α → Bool
  | .ok _ => true
  | .error _ => false

/-- A state to run the dispatchers in: the initial state of a logged-out session. -/
def loggedOutState : AppState := stateLiteral .null .null .null

/-- A storage holding the JSON text of a user next to a token that is no token. -/
def staleStorage : Storage :=
  [("user", "\x7b\"name\":\"Ana\"\x7d"), ("token", "not a token")]

/-- A world holding a persisted session and nothing else. -/
def sessionWorld : World :=
  { localStorage := [("user", "null"), ("token", "abc"), ("location", "Cluj")]
    dispatched := []
    timers := []
    requests := [] }

/-- Whether a call is a call of `deleteJob`. -/
def Dispatcher.isDeleteJob : Dispatcher → Bool
  | .deleteJob _ _ => true
  | _ => false

/-- Whether the network rejected the request. -/
def Settled.isRejected : Settled → Bool
  | .rejected _ => true
  | .fulfilled _ => false

/-- The error action of a dispatcher, for those that have one. -/
def Dispatcher.errorType : Dispatcher → Option ActionType
  | .setupUser _ _ _ => some .USER_OPERATION_ERROR
  | .updateUser _ => some .USER_UPDATE_ERROR
  | .createJob _ => some .CREATE_JOB_ERROR
  | .editJob _ => some .EDIT_JOB_ERROR
  | _ => none

/-- The URL of the job list as the specification writes it: the five query parameters `limit`,
`page`, `status`, `jobType`, `sort`, followed by `search` exactly when the search text is not
empty. -/
def jobsUrl (page : Nat) (filterByStatus filterByJobType sort search : String) : String :=
  "/jobs?limit=10&page=" ++ toString page ++ "&status=" ++ filterByStatus ++
    "&jobType=" ++ filterByJobType ++ "&sort=" ++ sort ++
    (if search = "" then "" else "&search=" ++ search)

/-- A computation that never removes a timer. -/
def KeepsTimers {α : Type} (m : JS α) : Prop :=
  ∀ w, w.timers.length ≤ (m w).2.timers.length

mutual
/-- The values `JSON.parse` can return: no `undefined` anywhere, numbers among the safe
integers, and no key twice in an object. -/
def isJson : JSValue → Bool
  | .undefined => false
  | .null => true
  | .bool _ => true
  | .num n => decide (-9007199254740992 < n ∧ n < 9007199254740992)
  | .str _ => true
  | .arr xs => allJson xs
  | .obj fs => fieldsJson fs
/-- All elements are JSON values. -/
def allJson : List JSValue → Bool
  | [] => true
  | x :: xs => isJson x && allJson xs
/-- All member values are JSON values and the keys are distinct. -/
def fieldsJson : List (String × JSValue) → Bool
  | [] => true
  | (k, v) :: rest => isJson v && (lookupKey k rest).isNone && fieldsJson rest
end

mutual
/-- Fuel that `parseValue` needs to read back the text of a value. -/
def fuelValue : JSValue → Nat
  | .arr xs => 1 + fuelElems xs
  | .obj fs => 1 + fuelMembers fs
  | _ => 1
/-- Fuel that `parseElems` needs to read back the texts of the elements. -/
def fuelElems : List JSValue → Nat
  | [] => 0
  | x :: xs => 1 + fuelValue x + fuelElems xs
/-- Fuel that `parseMembers` needs to read back the texts of the members. -/
def fuelMembers : List (String × JSValue) → Nat
  | [] => 0
  | (_, v) :: rest => 1 + fuelValue v + fuelMembers rest
end

/-- What may follow a value inside a JSON text: nothing, a comma or a closing bracket or brace. -/
def Delimited (rest : List Char) : Prop :=
  rest = [] ∨ ∃ c r, rest = c :: r ∧ (c = ',' ∨ c = ']' ∨ c = Char.ofNat 125)

/-! ## JSON: reading back what was written -/

theorem hex4_escape : ∀ n, n < 32 →
    hex4 '0' '0' (hexDigit (n / 16)) (hexDigit (n % 16)) = some n := by decide

theorem parseStringAux_escapeChar (fuel : Nat) (c : Char) (text : List Char) :
    parseStringAux (fuel + 1) (escapeChar c ++ text) =
      (parseStringAux fuel text).map (fun p => (c :: p.1, p.2)) := by
  unfold escapeChar
  split
  · next h => subst h; rfl
  split
  · next h => subst h; rfl
  split
  · next h => subst h; rfl
  split
  · next h => subst h; rfl
  split
  · next h => subst h; rfl
  split
  · next h => subst h; rfl
  split
  · next h => subst h; rfl
  split
  · next h1 h2 h3 h4 h5 h6 h7 h8 =>
    have hx := hex4_escape c.toNat h8
    have hc : Char.ofNat c.toNat = c := Char.ofNat_toNat c
    have hlt : c.toNat < 55296 ∨ 57344 ≤ c.toNat := Or.inl (by omega)
    simp [parseStringAux, parseEscape, parseUnicode, hx, hc, hlt]
  · next h1 h2 h3 h4 h5 h6 h7 h8 =>
    simp [parseStringAux, h1, h2, h8]

theorem parseStringAux_escapeChars (cs rest : List Char) (fuel : Nat) (h : cs.length < fuel) :
    parseStringAux fuel (escapeChars cs ++ Char.ofNat 34 :: rest) = some (cs, rest) := by
  induction cs generalizing fuel with
  | nil =>
    obtain ⟨f, rfl⟩ : ∃ f, fuel = f + 1 := ⟨fuel - 1, by simp at h; omega⟩
    simp [escapeChars, parseStringAux]
  | cons c cs ih =>
    obtain ⟨f, rfl⟩ : ∃ f, fuel = f + 1 := ⟨fuel - 1, by simp at h; omega⟩
    simp only [escapeChars, List.append_assoc]
    rw [parseStringAux_escapeChar, ih f (by simpa using h)]
    rfl

theorem length_le_escapeChars (cs : List Char) : cs.length ≤ (escapeChars cs).length := by
  induction cs with
  | nil => simp [escapeChars]
  | cons c cs ih =>
    have h : 1 ≤ (escapeChar c).length := by
      unfold escapeChar
      repeat' split
      all_goals simp
    simp [escapeChars]
    omega

theorem parseString_escapeChars (cs rest : List Char) :
    parseString (escapeChars cs ++ Char.ofNat 34 :: rest) = some (cs, rest) := by
  unfold parseString
  apply parseStringAux_escapeChars
  have := length_le_escapeChars cs
  simp
  omega

theorem digitVal_digitChar : ∀ n, n < 10 → digitVal (Nat.digitChar n) = some n := by decide

theorem toDigitsCore_append (fuel : Nat) : ∀ (n : Nat) (ds : List Char),
    Nat.toDigitsCore 10 fuel n ds = Nat.toDigitsCore 10 fuel n [] ++ ds := by
  induction fuel with
  | zero => intro n ds; simp [Nat.toDigitsCore]
  | succ f ih =>
    intro n ds
    simp only [Nat.toDigitsCore]
    split
    · simp
    · rw [ih (n / 10) (Nat.digitChar (n % 10) :: ds), ih (n / 10) [Nat.digitChar (n % 10)]]
      simp

theorem parseDigits_toDigitsCore (fuel : Nat) : ∀ (n : Nat) (tail : List Char), n < fuel →
    parseDigits 0 (Nat.toDigitsCore 10 fuel n [] ++ tail) = parseDigits n tail := by
  induction fuel with
  | zero => intro n tail h; omega
  | succ f ih =>
    intro n tail h
    simp only [Nat.toDigitsCore]
    split
    · next h0 =>
      have hn : n < 10 := by omega
      have hm : n % 10 = n := Nat.mod_eq_of_lt hn
      simp [parseDigits, hm, digitVal_digitChar n hn]
    · next h0 =>
      rw [toDigitsCore_append, List.append_assoc, ih (n / 10) _ (by omega)]
      have hd := digitVal_digitChar (n % 10) (Nat.mod_lt _ (by decide))
      simp only [List.singleton_append, parseDigits, hd]
      congr 1
      omega

theorem toDigitsCore_head (fuel : Nat) : ∀ n : Nat, n < fuel →
    ∃ c cs h, Nat.toDigitsCore 10 fuel n [] = c :: cs ∧ digitVal c = some h ∧
      (n ≠ 0 → h ≠ 0) ∧ (n = 0 → cs = []) := by
  induction fuel with
  | zero => intro n h; omega
  | succ f ih =>
    intro n h
    simp only [Nat.toDigitsCore]
    split
    · next h0 =>
      have hn : n < 10 := by omega
      have hm : n % 10 = n := Nat.mod_eq_of_lt hn
      exact ⟨_, [], n, rfl, by rw [hm]; exact digitVal_digitChar n hn, fun h => h, fun _ => rfl⟩
    · next h0 =>
      obtain ⟨c, cs, h1, e, hv, hz, _⟩ := ih (n / 10) (by omega)
      rw [toDigitsCore_append, e]
      exact ⟨c, cs ++ [Nat.digitChar (n % 10)], h1, rfl, hv, fun _ => hz h0,
        fun hn => absurd (by simp [hn]) h0⟩

theorem digitVal_none_of_delimited (c : Char) (h : c = ',' ∨ c = ']' ∨ c = Char.ofNat 125) :
    digitVal c = none ∧ startsFraction [c] = false ∧ isWs c = false := by
  rcases h with h | h | h <;> subst h <;> decide

theorem parseDigits_delimited (n : Nat) (rest : List Char) (h : Delimited rest) :
    parseDigits n rest = (n, rest) := by
  rcases h with h | ⟨c, r, h, hc⟩
  · subst h; rfl
  · subst h
    simp [parseDigits, (digitVal_none_of_delimited c hc).1]

theorem startsFraction_delimited (rest : List Char) (h : Delimited rest) :
    startsFraction rest = false := by
  rcases h with h | ⟨c, r, h, hc⟩
  · subst h; rfl
  · subst h
    exact (digitVal_none_of_delimited c hc).2.1

theorem parseNat_toDigits (n : Nat) (rest : List Char) (h : Delimited rest) :
    parseNat (Nat.toDigits 10 n ++ rest) = some (n, rest) := by
  unfold Nat.toDigits
  obtain ⟨c, cs, d, e, hv, hz, hs⟩ := toDigitsCore_head (n + 1) n (by omega)
  have hp := parseDigits_toDigitsCore (n + 1) n rest (by omega)
  rw [e] at hp ⊢
  rw [parseDigits_delimited n rest h] at hp
  simp only [List.cons_append, parseDigits, hv] at hp
  cases d with
  | zero =>
    have hn : n = 0 := by
      by_contra hne
      exact hz hne rfl
    subst hn
    rw [hs rfl]
    rcases h with h | ⟨c1, r, h, hc⟩
    · subst h; simp [parseNat, hv]
    · subst h
      have := digitVal_none_of_delimited c1 hc
      simp [parseNat, hv, this.1]
      simpa [startsFraction] using this.2.1
  | succ d =>
    simp only [List.cons_append, parseNat, hv]
    simp at hp
    simp [hp, startsFraction_delimited rest h]

theorem parseNumber_numText (n : Int) (rest : List Char) (h : Delimited rest) :
    parseNumber (numText n ++ rest) = some (.num n, rest) := by
  cases n with
  | ofNat k =>
    simp only [numText]
    obtain ⟨c, cs, d, e, hv, _, _⟩ := toDigitsCore_head (k + 1) k (by omega)
    have hk := parseNat_toDigits k rest h
    unfold Nat.toDigits at hk ⊢
    rw [e] at hk ⊢
    have hc : c ≠ '-' := by
      intro hc; subst hc; simp [digitVal] at hv
    rw [List.cons_append] at hk
    simp [parseNumber, hc, hk]
  | negSucc k =>
    simp [numText, parseNumber, parseNat_toDigits (k + 1) rest h, Int.negSucc_eq]

theorem skipWs_cons (c : Char) (cs : List Char) (h : isWs c = false) :
    skipWs (c :: cs) = c :: cs := by
  simp [skipWs, h]

theorem parseValue_array_empty (fuel : Nat) (rest : List Char) :
    parseValue (fuel + 1) ('[' :: ']' :: rest) = some (.arr [], rest) := by
  have h1 : isWs '[' = false := by decide
  have h2 : isWs ']' = false := by decide
  simp [parseValue, skipWs_cons, h1, h2]

theorem parseValue_array (fuel : Nat) (c : Char) (r : List Char) (hws : isWs c = false)
    (hc : c ≠ ']') :
    parseValue (fuel + 1) ('[' :: c :: r) =
      (parseElems fuel (c :: r)).map (fun p => (.arr p.1, p.2)) := by
  have h1 : isWs '[' = false := by decide
  simp [parseValue, skipWs_cons, h1, hws, hc]

theorem parseValue_object_empty (fuel : Nat) (rest : List Char) :
    parseValue (fuel + 1) (Char.ofNat 123 :: Char.ofNat 125 :: rest) = some (.obj [], rest) := by
  have h1 : isWs (Char.ofNat 123) = false := by decide
  have h2 : isWs (Char.ofNat 125) = false := by decide
  have h3 : Char.ofNat 123 ≠ '[' := by decide
  simp [parseValue, skipWs_cons, h1, h2, h3]

theorem parseValue_object (fuel : Nat) (c : Char) (r : List Char) (hws : isWs c = false)
    (hc : c ≠ Char.ofNat 125) :
    parseValue (fuel + 1) (Char.ofNat 123 :: c :: r) =
      (parseMembers fuel (c :: r)).map (fun p => (.obj p.1, p.2)) := by
  have h1 : isWs (Char.ofNat 123) = false := by decide
  have h3 : Char.ofNat 123 ≠ '[' := by decide
  simp [parseValue, skipWs_cons, h1, hws, hc, h3]

theorem parseValue_scalar (fuel : Nat) (c : Char) (r : List Char) (hws : isWs c = false)
    (h1 : c ≠ '[') (h2 : c ≠ Char.ofNat 123) :
    parseValue (fuel + 1) (c :: r) = parseScalar (c :: r) := by
  simp [parseValue, skipWs_cons, hws, h1, h2]

theorem parseElems_step (fuel : Nat) (text : List Char) (v : JSValue) (c : Char) (r : List Char)
    (h : parseValue fuel text = some (v, c :: r)) (hws : isWs c = false) :
    parseElems (fuel + 1) text =
      if c = ',' then (parseElems fuel r).map (fun p => (v :: p.1, p.2))
      else if c = ']' then some ([v], r) else none := by
  simp [parseElems, h, skipWs_cons, hws]

theorem parseMembers_step (fuel : Nat) (k text : List Char) (v : JSValue) (c : Char)
    (r : List Char) (h : parseValue fuel text = some (v, c :: r)) (hws : isWs c = false) :
    parseMembers (fuel + 1) (quoteJSON (String.mk k) ++ ':' :: text) =
      if c = ',' then
        (parseMembers fuel r).map (fun p => (addMember (String.mk k) v p.1, p.2))
      else if c = Char.ofNat 125 then some ([(String.mk k, v)], r) else none := by
  have h1 : isWs (Char.ofNat 34) = false := by decide
  have h2 : isWs ':' = false := by decide
  have hq : quoteJSON (String.mk k) ++ ':' :: text =
      Char.ofNat 34 :: (escapeChars k ++ Char.ofNat 34 :: ':' :: text) := by
    simp [quoteJSON]
  rw [hq]
  simp [parseMembers, skipWs_cons, h1, h2, parseString_escapeChars, h, hws]

theorem digit_head (c : Char) (d : Nat) (h : digitVal c = some d) :
    isWs c = false ∧ c ≠ '[' ∧ c ≠ ']' ∧ c ≠ Char.ofNat 123 ∧ c ≠ 'n' ∧ c ≠ 't' ∧ c ≠ 'f' ∧
      c ≠ Char.ofNat 34 ∧ c ≠ '-' := by
  have hb : 48 ≤ c.toNat ∧ c.toNat ≤ 57 := by
    unfold digitVal at h
    split at h
    · assumption
    · cases h
  refine ⟨?_, ?_, ?_, ?_, ?_, ?_, ?_, ?_, ?_⟩
  · simp only [isWs, Bool.or_eq_false_iff, decide_eq_false_iff_not]
    refine ⟨⟨⟨?_, ?_⟩, ?_⟩, ?_⟩ <;> (intro hc; subst hc; revert hb; decide)
  all_goals (intro hc; subst hc; revert hb; decide)

theorem numText_head (n : Int) :
    ∃ c r, numText n = c :: r ∧ (c = '-' ∨ ∃ d, digitVal c = some d) := by
  cases n with
  | ofNat k =>
    obtain ⟨c, cs, d, e, hv, _, _⟩ := toDigitsCore_head (k + 1) k (by omega)
    exact ⟨c, cs, by simp [numText, Nat.toDigits, e], Or.inr ⟨d, hv⟩⟩
  | negSucc k => exact ⟨'-', _, rfl, Or.inl rfl⟩

theorem parseScalar_numText (n : Int) (rest : List Char) (h : Delimited rest) :
    parseScalar (numText n ++ rest) = some (.num n, rest) := by
  have hp := parseNumber_numText n rest h
  obtain ⟨c, r, e, hc⟩ := numText_head n
  rw [e] at hp ⊢
  rcases hc with hc | ⟨d, hd⟩
  · subst hc
    simpa [parseScalar] using hp
  · obtain ⟨_, _, _, _, h1, h2, h3, h4, _⟩ := digit_head c d hd
    simpa [parseScalar, h1, h2, h3, h4] using hp

/-- The first character of the text of a value is no white space and closes nothing. -/
theorem serialize_head (v : JSValue) (t : List Char) (h : serialize v = some t) :
    ∃ c r, t = c :: r ∧ isWs c = false ∧ c ≠ ']' := by
  cases v with
  | undefined => simp [serialize] at h
  | null => simp [serialize] at h; subst h; exact ⟨'n', _, rfl, by decide, by decide⟩
  | bool b =>
    cases b <;> simp [serialize] at h <;> subst h
    · exact ⟨'f', _, rfl, by decide, by decide⟩
    · exact ⟨'t', _, rfl, by decide, by decide⟩
  | num n =>
    simp [serialize] at h; subst h
    obtain ⟨c, r, e, hc⟩ := numText_head n
    refine ⟨c, r, e, ?_⟩
    rcases hc with hc | ⟨d, hd⟩
    · subst hc; exact ⟨by decide, by decide⟩
    · exact ⟨(digit_head c d hd).1, (digit_head c d hd).2.2.1⟩
  | str s =>
    simp [serialize] at h; subst h
    exact ⟨Char.ofNat 34, _, rfl, by decide, by decide⟩
  | arr xs =>
    simp [serialize] at h; subst h
    exact ⟨'[', _, rfl, by decide, by decide⟩
  | obj fs =>
    simp [serialize] at h; subst h
    exact ⟨Char.ofNat 123, _, rfl, by decide, by decide⟩

theorem serialize_of_isJson (v : JSValue) (h : isJson v = true) :
    ∃ t, serialize v = some t := by
  cases v with
  | undefined => simp [isJson] at h
  | _ => exact ⟨_, rfl⟩

theorem lookupKey_none_removeKey {α : Type} (k : String) (l : List (String × α))
    (h : lookupKey k l = none) : removeKey k l = l := by
  induction l with
  | nil => rfl
  | cons p rest ih =>
    obtain ⟨a, b⟩ := p
    by_cases h1 : a = k
    · simp [lookupKey, h1] at h
    · simp [lookupKey, h1] at h
      simp [removeKey, h1, ih h]

theorem delimited_cons (c : Char) (r : List Char)
    (h : c = ',' ∨ c = ']' ∨ c = Char.ofNat 125) : Delimited (c :: r) :=
  Or.inr ⟨c, r, rfl, h⟩

mutual
/-- Reading back the text of a JSON value gives the value and leaves what follows. -/
theorem parseValue_serialize : ∀ (v : JSValue), isJson v = true →
    ∀ (fuel : Nat) (rest : List Char), fuelValue v ≤ fuel → Delimited rest →
    ∃ t, serialize v = some t ∧ parseValue fuel (t ++ rest) = some (v, rest)
  | .undefined, h, _, _, _, _ => by simp [isJson] at h
  | .null, _, fuel, rest, hf, _ => by
    obtain ⟨f, rfl⟩ : ∃ f, fuel = f + 1 := ⟨fuel - 1, by simp [fuelValue] at hf; omega⟩
    refine ⟨_, rfl, ?_⟩
    show parseValue (f + 1) ('n' :: 'u' :: 'l' :: 'l' :: rest) = _
    rw [parseValue_scalar _ _ _ (by decide) (by decide) (by decide)]
    simp [parseScalar, dropLiteral]
  | .bool true, _, fuel, rest, hf, _ => by
    obtain ⟨f, rfl⟩ : ∃ f, fuel = f + 1 := ⟨fuel - 1, by simp [fuelValue] at hf; omega⟩
    refine ⟨_, rfl, ?_⟩
    show parseValue (f + 1) ('t' :: 'r' :: 'u' :: 'e' :: rest) = _
    rw [parseValue_scalar _ _ _ (by decide) (by decide) (by decide)]
    simp [parseScalar, dropLiteral]
  | .bool false, _, fuel, rest, hf, _ => by
    obtain ⟨f, rfl⟩ : ∃ f, fuel = f + 1 := ⟨fuel - 1, by simp [fuelValue] at hf; omega⟩
    refine ⟨_, rfl, ?_⟩
    show parseValue (f + 1) ('f' :: 'a' :: 'l' :: 's' :: 'e' :: rest) = _
    rw [parseValue_scalar _ _ _ (by decide) (by decide) (by decide)]
    simp [parseScalar, dropLiteral]
  | .num n, _, fuel, rest, hf, hd => by
    obtain ⟨f, rfl⟩ : ∃ f, fuel = f + 1 := ⟨fuel - 1, by simp [fuelValue] at hf; omega⟩
    refine ⟨_, rfl, ?_⟩
    have hs := parseScalar_numText n rest hd
    obtain ⟨c, r, e, hc⟩ := numText_head n
    rw [e] at hs ⊢
    rcases hc with hc | ⟨d, hdv⟩
    · subst hc
      rw [List.cons_append, parseValue_scalar _ _ _ (by decide) (by decide) (by decide)]
      exact hs
    · obtain ⟨h0, h1, _, h3, _⟩ := digit_head c d hdv
      rw [List.cons_append, parseValue_scalar _ _ _ h0 h1 h3]
      exact hs
  | .str s, _, fuel, rest, hf, _ => by
    obtain ⟨f, rfl⟩ : ∃ f, fuel = f + 1 := ⟨fuel - 1, by simp [fuelValue] at hf; omega⟩
    refine ⟨_, rfl, ?_⟩
    show parseValue (f + 1) (quoteJSON s ++ rest) = _
    have hq : quoteJSON s ++ rest =
        Char.ofNat 34 :: (escapeChars s.toList ++ Char.ofNat 34 :: rest) := by
      simp [quoteJSON]
    rw [hq, parseValue_scalar _ _ _ (by decide) (by decide) (by decide)]
    have h1 : Char.ofNat 34 ≠ 'n' := by decide
    have h2 : Char.ofNat 34 ≠ 't' := by decide
    have h3 : Char.ofNat 34 ≠ 'f' := by decide
    simp [parseScalar, h1, h2, h3, parseString_escapeChars]
  | .arr xs, h, fuel, rest, hf, _ => by
    obtain ⟨f, rfl⟩ : ∃ f, fuel = f + 1 := ⟨fuel - 1, by simp [fuelValue] at hf; omega⟩
    refine ⟨_, rfl, ?_⟩
    cases xs with
    | nil => exact parseValue_array_empty f rest
    | cons x xs =>
      have hx : isJson x = true ∧ allJson xs = true := by simpa [isJson, allJson] using h
      have he := parseElems_serialize (x :: xs) (by simpa [isJson] using h) f rest
        (by simp [fuelValue] at hf; omega) (by simp)
      obtain ⟨t, ht⟩ := serialize_of_isJson x hx.1
      obtain ⟨c, r, e, hws, hc⟩ := serialize_head x t ht
      have hcs : ∃ r1, commaSep (serializeElems (x :: xs)) = c :: r1 := by
        cases xs with
        | nil => exact ⟨r, by simp [serializeElems, commaSep, ht, e]⟩
        | cons y ys => exact ⟨_, by simp [serializeElems, commaSep, ht, e]; rfl⟩
      obtain ⟨r1, e1⟩ := hcs
      show parseValue (f + 1) ('[' :: (commaSep (serializeElems (x :: xs)) ++ [']']) ++ rest) = _
      rw [e1] at he ⊢
      simp only [List.cons_append, List.append_assoc, List.singleton_append,
        List.nil_append] at he ⊢
      rw [parseValue_array f c _ hws hc, he]
      rfl
  | .obj fs, h, fuel, rest, hf, _ => by
    obtain ⟨f, rfl⟩ : ∃ f, fuel = f + 1 := ⟨fuel - 1, by simp [fuelValue] at hf; omega⟩
    refine ⟨_, rfl, ?_⟩
    cases fs with
    | nil => exact parseValue_object_empty f rest
    | cons p fs =>
      obtain ⟨k, x⟩ := p
      have hx : isJson x = true := by
        simp [isJson, fieldsJson] at h; exact h.1.1
      have he := parseMembers_serialize ((k, x) :: fs) (by simpa [isJson] using h) f rest
        (by simp [fuelValue] at hf; omega) (by simp)
      obtain ⟨t, ht⟩ := serialize_of_isJson x hx
      have hcs : ∃ r1, commaSep (serializeFields ((k, x) :: fs)) = Char.ofNat 34 :: r1 := by
        simp only [serializeFields, ht]
        cases serializeFields fs with
        | nil => exact ⟨_, by simp [commaSep, quoteJSON]; rfl⟩
        | cons y ys => exact ⟨_, by simp [commaSep, quoteJSON]; rfl⟩
      obtain ⟨r1, e1⟩ := hcs
      show parseValue (f + 1)
        (Char.ofNat 123 :: (commaSep (serializeFields ((k, x) :: fs)) ++ [Char.ofNat 125]) ++ rest)
          = _
      rw [e1] at he ⊢
      simp only [List.cons_append, List.append_assoc, List.singleton_append,
        List.nil_append] at he ⊢
      rw [parseValue_object f _ _ (by decide) (by decide), he]
      rfl
/-- Reading back the texts of the elements of a non-empty array. -/
theorem parseElems_serialize : ∀ (xs : List JSValue), allJson xs = true →
    ∀ (fuel : Nat) (rest : List Char), fuelElems xs ≤ fuel → xs ≠ [] →
    parseElems fuel (commaSep (serializeElems xs) ++ ']' :: rest) = some (xs, rest)
  | [], _, _, _, _, hne => absurd rfl hne
  | [x], h, fuel, rest, hf, _ => by
    obtain ⟨f, rfl⟩ : ∃ f, fuel = f + 1 := ⟨fuel - 1, by simp [fuelElems] at hf; omega⟩
    have hx : isJson x = true := by simpa [allJson] using h
    obtain ⟨t, ht, hp⟩ := parseValue_serialize x hx f (']' :: rest)
      (by simp [fuelElems] at hf; omega) (delimited_cons _ _ (Or.inr (Or.inl rfl)))
    simp only [serializeElems, commaSep, ht, Option.getD_some]
    rw [parseElems_step f _ x ']' rest hp (by decide)]
    simp
  | x :: y :: xs, h, fuel, rest, hf, _ => by
    obtain ⟨f, rfl⟩ : ∃ f, fuel = f + 1 := ⟨fuel - 1, by simp [fuelElems] at hf; omega⟩
    have hx : isJson x = true ∧ allJson (y :: xs) = true := by
      simp only [allJson, Bool.and_eq_true] at h ⊢; exact h
    have he := parseElems_serialize (y :: xs) hx.2 f rest
      (by simp [fuelElems] at hf ⊢; omega) (by simp)
    obtain ⟨t, ht, hp⟩ := parseValue_serialize x hx.1 f
      (',' :: (commaSep (serializeElems (y :: xs)) ++ ']' :: rest))
      (by simp [fuelElems] at hf; omega) (delimited_cons _ _ (Or.inl rfl))
    have e : commaSep (serializeElems (x :: y :: xs)) ++ ']' :: rest =
        t ++ ',' :: (commaSep (serializeElems (y :: xs)) ++ ']' :: rest) := by
      simp [serializeElems, commaSep, ht]
    rw [e, parseElems_step f _ x ',' _ hp (by decide), he]
    simp
/-- Reading back the texts of the members of a non-empty object. -/
theorem parseMembers_serialize : ∀ (fs : List (String × JSValue)), fieldsJson fs = true →
    ∀ (fuel : Nat) (rest : List Char), fuelMembers fs ≤ fuel → fs ≠ [] →
    parseMembers fuel (commaSep (serializeFields fs) ++ Char.ofNat 125 :: rest) = some (fs, rest)
  | [], _, _, _, _, hne => absurd rfl hne
  | [(k, x)], h, fuel, rest, hf, _ => by
    obtain ⟨f, rfl⟩ : ∃ f, fuel = f + 1 := ⟨fuel - 1, by simp [fuelMembers] at hf; omega⟩
    have hx : isJson x = true := by simpa [fieldsJson, lookupKey] using h
    obtain ⟨t, ht, hp⟩ := parseValue_serialize x hx f (Char.ofNat 125 :: rest)
      (by simp [fuelMembers] at hf; omega) (delimited_cons _ _ (Or.inr (Or.inr rfl)))
    have e : commaSep (serializeFields [(k, x)]) ++ Char.ofNat 125 :: rest =
        quoteJSON (String.mk k.toList) ++ ':' :: (t ++ Char.ofNat 125 :: rest) := by
      simp [serializeFields, commaSep, ht]
    have hk : Char.ofNat 125 ≠ ',' := by decide
    rw [e, parseMembers_step f _ _ x _ rest hp (by decide)]
    simp [hk]
  | (k, x) :: q :: fs, h, fuel, rest, hf, _ => by
    obtain ⟨f, rfl⟩ : ∃ f, fuel = f + 1 := ⟨fuel - 1, by simp [fuelMembers] at hf; omega⟩
    have hx : (isJson x = true ∧ lookupKey k (q :: fs) = none) ∧ fieldsJson (q :: fs) = true := by
      simpa [fieldsJson] using h
    have he := parseMembers_serialize (q :: fs) hx.2 f rest
      (by simp [fuelMembers] at hf ⊢; omega) (by simp)
    obtain ⟨t, ht, hp⟩ := parseValue_serialize x hx.1.1 f
      (',' :: (commaSep (serializeFields (q :: fs)) ++ Char.ofNat 125 :: rest))
      (by simp [fuelMembers] at hf; omega) (delimited_cons _ _ (Or.inl rfl))
    obtain ⟨k2, y⟩ := q
    have hy : isJson y = true := by
      have := hx.2
      simp only [fieldsJson, Bool.and_eq_true] at this
      exact this.1.1
    obtain ⟨ty, hty⟩ := serialize_of_isJson y hy
    have e : commaSep (serializeFields ((k, x) :: (k2, y) :: fs)) ++ Char.ofNat 125 :: rest =
        quoteJSON (String.mk k.toList) ++ ':' ::
          (t ++ ',' :: (commaSep (serializeFields ((k2, y) :: fs)) ++ Char.ofNat 125 :: rest)) := by
      simp [serializeFields, commaSep, ht, hty]
    rw [e, parseMembers_step f _ _ x _ _ hp (by decide), he]
    simp [addMember, hx.1.2, lookupKey_none_removeKey _ _ hx.1.2]
end

theorem commaSep_cons_length (x : List Char) (xs : List (List Char)) :
    x.length ≤ (commaSep (x :: xs)).length ∧
      (xs ≠ [] → (commaSep (x :: xs)).length = x.length + 1 + (commaSep xs).length) := by
  cases xs with
  | nil => simp [commaSep]
  | cons y ys => simp [commaSep]; omega

mutual
/-- The text of a JSON value is at least as long as the fuel needed to read it back. -/
theorem fuelValue_le : ∀ (v : JSValue), isJson v = true → ∀ t, serialize v = some t →
    fuelValue v ≤ t.length
  | .undefined, h, _, _ => by simp [isJson] at h
  | .null, _, t, ht => by simp [serialize] at ht; subst ht; simp [fuelValue]
  | .bool b, _, t, ht => by
    simp [serialize] at ht; subst ht; cases b <;> simp [fuelValue]
  | .num n, _, t, ht => by
    simp [serialize] at ht; subst ht
    obtain ⟨c, r, e, _⟩ := numText_head n
    simp [fuelValue, e]
  | .str s, _, t, ht => by
    simp [serialize] at ht; subst ht; simp [fuelValue, quoteJSON]
  | .arr xs, h, t, ht => by
    simp [serialize] at ht; subst ht
    have := fuelElems_le xs (by simpa [isJson] using h)
    simp [fuelValue]; omega
  | .obj fs, h, t, ht => by
    simp [serialize] at ht; subst ht
    have := fuelMembers_le fs (by simpa [isJson] using h)
    simp [fuelValue]; omega
/-- The same bound for the elements of an array. -/
theorem fuelElems_le : ∀ (xs : List JSValue), allJson xs = true →
    fuelElems xs ≤ (commaSep (serializeElems xs)).length + 1
  | [], _ => by simp [fuelElems]
  | [x], h => by
    have hx : isJson x = true := by simpa [allJson] using h
    obtain ⟨t, ht⟩ := serialize_of_isJson x hx
    have := fuelValue_le x hx t ht
    simp [fuelElems, serializeElems, commaSep, ht]; omega
  | x :: y :: xs, h => by
    have hx : isJson x = true ∧ allJson (y :: xs) = true := by
      simp only [allJson, Bool.and_eq_true] at h ⊢; exact h
    obtain ⟨t, ht⟩ := serialize_of_isJson x hx.1
    have h1 := fuelValue_le x hx.1 t ht
    have h2 := fuelElems_le (y :: xs) hx.2
    have e : commaSep (serializeElems (x :: y :: xs)) =
        t ++ ',' :: commaSep (serializeElems (y :: xs)) := by
      simp [serializeElems, commaSep, ht]
    rw [e]
    simp [fuelElems] at h2 ⊢; omega
/-- The same bound for the members of an object. -/
theorem fuelMembers_le : ∀ (fs : List (String × JSValue)), fieldsJson fs = true →
    fuelMembers fs ≤ (commaSep (serializeFields fs)).length + 1
  | [], _ => by simp [fuelMembers]
  | [(k, x)], h => by
    have hx : isJson x = true := by simpa [fieldsJson, lookupKey] using h
    obtain ⟨t, ht⟩ := serialize_of_isJson x hx
    have := fuelValue_le x hx t ht
    simp [fuelMembers, serializeFields, commaSep, ht]; omega
  | (k, x) :: (k2, y) :: fs, h => by
    have hx : (isJson x = true ∧ lookupKey k ((k2, y) :: fs) = none) ∧
        fieldsJson ((k2, y) :: fs) = true := by
      simpa [fieldsJson] using h
    have hy : isJson y = true := by
      have := hx.2
      simp only [fieldsJson, Bool.and_eq_true] at this
      exact this.1.1
    obtain ⟨t, ht⟩ := serialize_of_isJson x hx.1.1
    obtain ⟨ty, hty⟩ := serialize_of_isJson y hy
    have h1 := fuelValue_le x hx.1.1 t ht
    have h2 := fuelMembers_le ((k2, y) :: fs) hx.2
    have e : commaSep (serializeFields ((k, x) :: (k2, y) :: fs)) =
        (quoteJSON k ++ ':' :: t) ++ ',' :: commaSep (serializeFields ((k2, y) :: fs)) := by
      simp [serializeFields, commaSep, ht, hty]
    rw [e]
    simp [fuelMembers] at h2 ⊢; omega
end

/-- The function `JSON.parse` reads back what `JSON.stringify` writes for a JSON value, and that
text is not
empty. -/
theorem parse_stringify (v : JSValue) (h : isJson v = true) :
    ∃ s, JSON.stringify v = .str s ∧ s ≠ "" ∧ JSON.parse s = .ok v := by
  obtain ⟨t, ht⟩ := serialize_of_isJson v h
  obtain ⟨c, r, e, _, _⟩ := serialize_head v t ht
  have hf := fuelValue_le v h t ht
  obtain ⟨t1, ht1, hp⟩ := parseValue_serialize v h (t.length + 1) [] (by omega) (Or.inl rfl)
  rw [ht] at ht1
  cases ht1
  refine ⟨String.mk t, by simp [JSON.stringify, ht], ?_, ?_⟩
  · intro hs
    have : t = [] := by simpa using congrArg String.data hs
    rw [e] at this
    cases this
  · have hl : (String.mk t).length = t.length := rfl
    have hd : (String.mk t).toList = t := rfl
    rw [List.append_nil] at hp
    simp [JSON.parse, hl, hd, hp, skipWs]

/-! ## Properties of the provider -/

theorem run_pure {α : Type} (a : α) (w : World) : (pure a : JS α) w = (.ok a, w) := rfl

theorem run_bind {α β : Type} (m : JS α) (f : α → JS β) (w : World) :
    (m >>= f) w = match m w with
      | (.ok a, w1) => f a w1
      | (.error e, w1) => (.error e, w1) := rfl

theorem lookupKey_removeKey {α : Type} (k k1 : String) (l : List (String × α)) :
    lookupKey k (removeKey k1 l) = if k1 = k then none else lookupKey k l := by
  induction l with
  | nil => simp [removeKey, lookupKey]
  | cons p rest ih =>
    obtain ⟨a, b⟩ := p
    by_cases h1 : a = k1 <;> by_cases h2 : k1 = k <;> by_cases h3 : a = k <;>
      simp_all [removeKey, lookupKey]

theorem removeKey_removeKey {α : Type} (k : String) (l : List (String × α)) :
    removeKey k (removeKey k l) = removeKey k l := by
  induction l with
  | nil => rfl
  | cons p rest ih =>
    obtain ⟨a, b⟩ := p
    by_cases h1 : a = k <;> simp [removeKey, h1, ih]

theorem removeKey_comm {α : Type} (k k1 : String) (l : List (String × α)) :
    removeKey k (removeKey k1 l) = removeKey k1 (removeKey k l) := by
  induction l with
  | nil => rfl
  | cons p rest ih =>
    obtain ⟨a, b⟩ := p
    by_cases h1 : a = k <;> by_cases h2 : a = k1 <;> by_cases h3 : k = k1 <;>
      simp_all [removeKey]

/-- After the three removals of `removeUserFromLocalStorage` the session entries read `null`. -/
theorem getItem_removed (ls : Storage) :
    let ls1 := ((ls.removeItem "user").removeItem "token").removeItem "location"
    ls1.getItem "user" = .null ∧ ls1.getItem "token" = .null ∧ ls1.getItem "location" = .null := by
  simp [Storage.getItem, Storage.removeItem, lookupKey_removeKey]

/-- C1: a request of an authenticated dispatcher that fails with status 401 makes the run
dispatch `LOGOUT_USER`, leaves the `user`, `token` and `location` entries of the storage absent,
and dispatches none of `USER_UPDATE_ERROR`, `CREATE_JOB_ERROR`, `EDIT_JOB_ERROR`. -/
theorem unauthorized_forces_logout (d : Dispatcher) (state : AppState) (r : Response) (w : World)
    (hd : d.authenticated = true) (h : r.status = 401) :
    let run := d.run state (.rejected (.axiosError (some r)))
    hasType .LOGOUT_USER (dispatchedBy run w) = true ∧
    (run w).2.localStorage.getItem "user" = .null ∧
    (run w).2.localStorage.getItem "token" = .null ∧
    (run w).2.localStorage.getItem "location" = .null ∧
    hasType .USER_UPDATE_ERROR (dispatchedBy run w) = false ∧
    hasType .CREATE_JOB_ERROR (dispatchedBy run w) = false ∧
    hasType .EDIT_JOB_ERROR (dispatchedBy run w) = false := by
  cases d <;>
    simp_all [Dispatcher.authenticated, Dispatcher.run, dispatchedBy, hasType, updateUser, createJob, editJob, getJobs,
      deleteJob, getStatistics, tryCatchFinally, tryCatch, run_bind, run_pure, dispatch,
      authFetch, responseInterceptorError, errorStatus, Thrown.response, logoutUser,
      removeUserFromLocalStorage, removeItem, throwJS, hideAlert, setTimeoutDispatch,
      Storage.getItem, Storage.removeItem, lookupKey_removeKey]

/-- Witness of C1: `createJob` refused with status 401 on a world holding a session. -/
theorem unauthorized_forces_logout_witness :
    (Dispatcher.createJob (.obj [])).authenticated = true ∧
    (Response.mk 401 .null []).status = 401 ∧
    (let run := (Dispatcher.createJob (.obj [])).run loggedOutState
        (.rejected (.axiosError (some (Response.mk 401 .null []))))
    hasType .LOGOUT_USER (dispatchedBy run sessionWorld) = true ∧
    (run sessionWorld).2.localStorage.getItem "user" = .null ∧
    (run sessionWorld).2.localStorage.getItem "token" = .null ∧
    (run sessionWorld).2.localStorage.getItem "location" = .null ∧
    hasType .USER_UPDATE_ERROR (dispatchedBy run sessionWorld) = false ∧
    hasType .CREATE_JOB_ERROR (dispatchedBy run sessionWorld) = false ∧
    hasType .EDIT_JOB_ERROR (dispatchedBy run sessionWorld) = false) :=
  ⟨rfl, rfl, unauthorized_forces_logout _ _ _ _ rfl rfl⟩

/-- C2: the claim fails on `deleteJob`.  When its `DELETE` request is rejected the run
registers no timer at all, so the auto-clear of the alert is not armed, while `getJobs` and
`getStatistics`, whose handler is the same `logoutUser()`, arm it on the same rejection from
their `finally` block. -/
theorem deleteJob_failure_arms_nothing :
    timersBy ((Dispatcher.deleteJob (.str "7") (.rejected (.axiosError none))).run loggedOutState
      (.rejected (.axiosError none))) sessionWorld = [] ∧
    armsHideAlert (timersBy ((Dispatcher.deleteJob (.str "7") (.rejected (.axiosError none))).run
      loggedOutState (.rejected (.axiosError none))) sessionWorld) = false ∧
    armsHideAlert (timersBy (Dispatcher.getJobs.run loggedOutState
      (.rejected (.axiosError none))) sessionWorld) = true ∧
    armsHideAlert (timersBy (Dispatcher.getStatistics.run loggedOutState
      (.rejected (.axiosError none))) sessionWorld) = true :=
  ⟨rfl, rfl, rfl, rfl⟩

theorem arms_drop_append (n : Nat) (ts : List (Nat × Action)) (p : JSValue)
    (h : n ≤ ts.length) :
    armsHideAlert ((ts ++ [(3000, (⟨.HIDE_ALERT, p⟩ : Action))]).drop n) = true := by
  rw [List.drop_append_of_le_length h]
  simp [armsHideAlert]

theorem keeps_pure {α : Type} (a : α) : KeepsTimers (pure a : JS α) := fun _ => le_refl _

theorem keeps_throw {α : Type} (e : Thrown) : KeepsTimers (throwJS e : JS α) := fun _ => le_refl _

theorem keeps_bind {α β : Type} (m : JS α) (f : α → JS β) (hm : KeepsTimers m)
    (hf : ∀ a, KeepsTimers (f a)) : KeepsTimers (m >>= f) := by
  intro w
  have h1 := hm w
  rw [run_bind]
  rcases hr : m w with ⟨r, w1⟩
  rw [hr] at h1
  cases r with
  | error e => exact h1
  | ok a => exact le_trans h1 (hf a w1)

theorem keeps_tryCatch (body : JS Unit) (handler : Thrown → JS Unit) (hb : KeepsTimers body)
    (hh : ∀ e, KeepsTimers (handler e)) : KeepsTimers (tryCatch body handler) := by
  intro w
  have h1 := hb w
  unfold tryCatch
  rcases hr : body w with ⟨r, w1⟩
  rw [hr] at h1
  cases r with
  | error e => exact le_trans h1 (hh e w1)
  | ok a => exact h1

theorem tryCatchFinally_hideAlert_timers (body : JS Unit) (handler : Thrown → JS Unit) (w : World) :
    (tryCatchFinally body handler hideAlert w).2.timers =
      (tryCatch body handler w).2.timers ++ [(3000, ⟨.HIDE_ALERT, .undefined⟩)] := by
  unfold tryCatchFinally tryCatch hideAlert setTimeoutDispatch
  rcases body w with ⟨r, w1⟩
  cases r <;> rfl

theorem keeps_dispatch (a : Action) : KeepsTimers (dispatch a) := fun _ => le_refl _
theorem keeps_liftExcept {α : Type} (r : Except Thrown α) : KeepsTimers (liftExcept r) :=
  fun _ => le_refl _

theorem keeps_setItem (k : String) (v : JSValue) : KeepsTimers (setItem k v) := by
  intro w; unfold setItem; cases toStr v <;> exact le_refl _
theorem keeps_removeItem (k : String) : KeepsTimers (removeItem k) := fun _ => le_refl _

theorem keeps_getProp (v : JSValue) (k : String) : KeepsTimers (getProp v k) :=
  keeps_liftExcept _

theorem keeps_toStringJS (v : JSValue) : KeepsTimers (toStringJS v) :=
  keeps_liftExcept _

theorem keeps_jsonParse (v : Primitive) : KeepsTimers (jsonParse v) :=
  keeps_liftExcept _

theorem keeps_errorStatus (e : Thrown) : KeepsTimers (errorStatus e) := by
  intro w; unfold errorStatus; cases e.response <;> exact le_refl _

theorem keeps_errorMessage (e : Thrown) : KeepsTimers (errorMessage e) := by
  intro w; unfold errorMessage
  cases e.response with
  | none => exact le_refl _
  | some r => exact keeps_getProp _ _ w

theorem keeps_logoutUser : KeepsTimers logoutUser := fun _ => le_refl _

theorem keeps_addUserToLocalStorage (p : JSValue) : KeepsTimers (addUserToLocalStorage p) := by
  unfold addUserToLocalStorage
  refine keeps_bind _ _ (keeps_getProp _ _) (fun _ => ?_)
  refine keeps_bind _ _ (keeps_getProp _ _) (fun _ => ?_)
  refine keeps_bind _ _ (keeps_getProp _ _) (fun _ => ?_)
  refine keeps_bind _ _ (keeps_setItem _ _) (fun _ => ?_)
  exact keeps_bind _ _ (keeps_setItem _ _) (fun _ => keeps_setItem _ _)

theorem keeps_axiosPost (url : String) (data : JSValue) (net : Settled) :
    KeepsTimers (axiosPost url data net) := by
  intro w; cases net <;> exact le_refl _

theorem keeps_authFetch (state : AppState) (method url : String) (data : JSValue) (net : Settled) :
    KeepsTimers (authFetch state method url data net) := by
  unfold authFetch
  refine keeps_bind _ _ (fun _ => le_refl _) (fun _ => ?_)
  cases net with
  | fulfilled r => exact keeps_pure r
  | rejected e =>
    unfold responseInterceptorError
    refine keeps_bind _ _ (keeps_errorStatus e) (fun s => ?_)
    refine keeps_bind _ _ ?_ (fun _ => keeps_throw e)
    split
    · exact keeps_logoutUser
    · exact keeps_pure _

/-- A dispatcher of the shape `dispatch(BEGIN); try … catch … finally { hideAlert() }` arms the
auto-clear when neither its body nor its handler removes timers. -/
theorem armed_of_finally (b : Action) (body : JS Unit) (handler : Thrown → JS Unit)
    (hb : KeepsTimers body) (hh : ∀ e, KeepsTimers (handler e)) (w : World) :
    armsHideAlert (timersBy (dispatch b >>= fun _ => tryCatchFinally body handler hideAlert) w)
      = true := by
  unfold timersBy
  rw [run_bind]
  simp only [dispatch]
  rw [tryCatchFinally_hideAlert_timers]
  exact arms_drop_append _ _ _ (keeps_tryCatch body handler hb hh
    { w with dispatched := w.dispatched ++ [b] })

theorem armed_getJobs (state : AppState) (net : Settled) (w : World) :
    armsHideAlert (timersBy (getJobs state net) w) = true := by
  unfold getJobs
  apply armed_of_finally
  · repeat' (with_reducible first
      | exact keeps_dispatch _ | exact keeps_getProp _ _ | exact keeps_authFetch _ _ _ _ _
      | refine keeps_bind _ _ ?_ (fun _ => ?_))
  · exact fun _ => keeps_logoutUser

/-- Every other run arms the auto-clear of the alert: each dispatcher however its request
settles, `deleteJob` left aside when its `DELETE` request is rejected (when it is fulfilled the
timer is registered by the `getJobs` it starts). -/
theorem alert_armed (d : Dispatcher) (state : AppState) (net : Settled) (w : World)
    (h : d.isDeleteJob = true → net.isRejected = false) :
    armsHideAlert (timersBy (d.run state net) w) = true := by
  cases d with
  | deleteJob id netJobs =>
    cases net with
    | rejected e => simp [Dispatcher.isDeleteJob, Settled.isRejected] at h
    | fulfilled r =>
      simp only [Dispatcher.run, deleteJob, timersBy, run_bind, dispatch, tryCatch, authFetch,
        run_pure, detached]
      exact armed_getJobs state netJobs
        { w with
          dispatched := w.dispatched ++ [⟨.DELETE_JOB_BEGIN, .undefined⟩]
          requests := w.requests ++ [⟨"DELETE", "/api/v1", "/jobs/" ++ id.toStr, .undefined,
            some ("Bearer " ++ state.token.toStr)⟩] }
  | _ =>
    simp only [Dispatcher.run, setupUser, updateUser, createJob, editJob, getJobs, getStatistics]
    apply armed_of_finally
    · repeat' (with_reducible first
        | exact keeps_dispatch _ | exact keeps_getProp _ _ | exact keeps_authFetch _ _ _ _ _
        | exact keeps_axiosPost _ _ _ | exact keeps_jsonParse _
        | exact keeps_addUserToLocalStorage _
        | refine keeps_bind _ _ ?_ (fun _ => ?_))
    · intro e
      dsimp only
      repeat' (with_reducible first
        | exact keeps_dispatch _ | exact keeps_errorStatus _ | exact keeps_toStringJS _
        | exact keeps_errorMessage _ | exact keeps_logoutUser | exact keeps_pure _
        | refine keeps_bind _ _ ?_ (fun _ => ?_)
        | split)

mutual
theorem toStrChars_of_printable : ∀ v : JSValue, printable v = true →
    (toStrChars v).isSome = true ∧ (elemChars v).isSome = true
  | .undefined, _ => ⟨rfl, rfl⟩
  | .null, _ => ⟨rfl, rfl⟩
  | .bool _, _ => ⟨rfl, rfl⟩
  | .num _, _ => ⟨rfl, rfl⟩
  | .str _, _ => ⟨rfl, rfl⟩
  | .arr xs, h => by
    have := joinChars_of_allPrintable xs (by simpa [printable] using h)
    simp [toStrChars, elemChars, this]
  | .obj fs, h => by
    have hf : lookupKey "toString" fs = none := by simpa [printable] using h
    simp [toStrChars, elemChars, hf]
theorem joinChars_of_allPrintable : ∀ xs : List JSValue, allPrintable xs = true →
    (joinChars xs).isSome = true
  | [], _ => rfl
  | [x], h => by
    have := toStrChars_of_printable x (by simpa [allPrintable] using h)
    simp [joinChars, this.2]
  | x :: y :: xs, h => by
    have hx : printable x = true ∧ allPrintable (y :: xs) = true := by
      simp only [allPrintable, Bool.and_eq_true] at h ⊢; exact h
    obtain ⟨a, ha⟩ := Option.isSome_iff_exists.mp (toStrChars_of_printable x hx.1).2
    obtain ⟨b, hb⟩ := Option.isSome_iff_exists.mp (joinChars_of_allPrintable (y :: xs) hx.2)
    simp [joinChars, ha, hb]
end

/-- The conversion to a string of a printable value does not throw. -/
theorem toStr_of_printable (v : JSValue) (h : printable v = true) : ∃ s, toStr v = .ok s := by
  obtain ⟨cs, hcs⟩ := Option.isSome_iff_exists.mp (toStrChars_of_printable v h).1
  exact ⟨String.mk cs, by simp [toStr, hcs]⟩

/-- C3 fails as stated: when the error of `setupUser` carries no response, reading
`error.response.data` throws inside the handler, the promise of the dispatcher is rejected with a
`TypeError` and no `USER_OPERATION_ERROR` is dispatched; and when the message of the error body
of `createJob` is an object with an own `toString` property, the template literal throws, with
the same outcome. -/
theorem setupUser_network_failure_throws :
    ((Dispatcher.setupUser (.obj []) (.str "login") (.str "ok")).run loggedOutState
      (.rejected (.axiosError none)) sessionWorld).1 = .error .typeError ∧
    hasType .USER_OPERATION_ERROR
      (dispatchedBy ((Dispatcher.setupUser (.obj []) (.str "login") (.str "ok")).run loggedOutState
        (.rejected (.axiosError none))) sessionWorld) = false ∧
    ((Dispatcher.createJob (.obj [])).run loggedOutState (.rejected (.axiosError (some
      (Response.mk 400 (.obj [("message", .obj [("toString", .num 1)])]) []))))
      sessionWorld).1 = .error .typeError ∧
    hasType .CREATE_JOB_ERROR
      (dispatchedBy ((Dispatcher.createJob (.obj [])).run loggedOutState (.rejected (.axiosError
        (some (Response.mk 400 (.obj [("message", .obj [("toString", .num 1)])]) [])))))
        sessionWorld) = false :=
  ⟨rfl, rfl, rfl, rfl⟩

/-- C3, amended: when the error carries a response whose body is neither `undefined` nor
`null`, so that `message` can be read from it, and that message converts to a string (it holds
no object with an own `toString` property), and when moreover the status is not 401 for the
authenticated dispatchers, then `setupUser`, `updateUser`, `createJob` and `editJob` complete
normally having dispatched their error action, and the response interceptor hands the error on
unchanged. -/
theorem error_action_dispatched (d : Dispatcher) (t : ActionType) (state : AppState)
    (r : Response) (message : JSValue) (w : World) (hd : d.errorType = some t)
    (hm : r.data.get "message" = .ok message) (hp : printable message = true)
    (hs : d.authenticated = true → r.status ≠ 401) :
    let run := d.run state (.rejected (.axiosError (some r)))
    (run w).1 = .ok () ∧ hasType t (dispatchedBy run w) = true ∧
    (d.authenticated = true →
      responseInterceptorError (.axiosError (some r)) w = (.error (.axiosError (some r)), w)) := by
  obtain ⟨msg, hmsg⟩ := toStr_of_printable message hp
  obtain ⟨status, data, headers⟩ := r
  simp only at hm
  cases d <;> simp [Dispatcher.errorType] at hd <;> subst hd <;>
    simp [Dispatcher.authenticated] at hs <;>
    simp_all [Dispatcher.run, Dispatcher.authenticated, dispatchedBy, hasType, setupUser,
      updateUser, createJob, editJob, tryCatchFinally, run_bind, run_pure, dispatch,
      authFetch, responseInterceptorError, errorStatus, errorMessage, Thrown.response,
      throwJS, hideAlert, setTimeoutDispatch, axiosPost, getProp, liftExcept, toStringJS]

/-- Witness of C3: `createJob` refused with status 400 and a message. -/
theorem error_action_dispatched_witness :
    (Dispatcher.createJob (.obj [])).errorType = some .CREATE_JOB_ERROR ∧
    (Response.mk 400 (.obj [("message", .str "Please provide all values")]) []).data.get "message"
      = .ok (.str "Please provide all values") ∧
    printable (.str "Please provide all values") = true ∧
    ((Dispatcher.createJob (.obj [])).authenticated = true →
      (Response.mk 400 (.obj [("message", .str "Please provide all values")]) []).status ≠ 401) ∧
    (let run := (Dispatcher.createJob (.obj [])).run loggedOutState (.rejected (.axiosError
      (some (Response.mk 400 (.obj [("message", .str "Please provide all values")]) []))))
    (run sessionWorld).1 = .ok () ∧
    hasType .CREATE_JOB_ERROR (dispatchedBy run sessionWorld) = true ∧
    ((Dispatcher.createJob (.obj [])).authenticated = true →
      responseInterceptorError (.axiosError
        (some (Response.mk 400 (.obj [("message", .str "Please provide all values")]) [])))
        sessionWorld = (.error (.axiosError
        (some (Response.mk 400 (.obj [("message", .str "Please provide all values")]) []))),
        sessionWorld))) :=
  ⟨rfl, rfl, rfl, fun _ => by decide,
    error_action_dispatched _ _ _ _ _ _ rfl rfl rfl (fun _ => by decide)⟩

theorem getJobsUrl_eq (state : AppState) :
    getJobsUrl state =
      jobsUrl state.page state.filterByStatus state.filterByJobType state.sort state.search := by
  have h10 : "/jobs?limit=" ++ toString (10 : Nat) = "/jobs?limit=10" := by decide
  unfold getJobsUrl jobsUrl
  by_cases hs : state.search = ""
  · simp [hs, h10]
  · simp [hs, h10, String.append_assoc]

/-- C7: `getJobs` sends exactly one request, a `GET` whose URL is the one the specification
writes from `page`, `filterByStatus`, `filterByJobType`, `sort` and `search` alone, with the
`search` parameter present exactly when the search text is not empty. -/
theorem getJobs_url (state : AppState) (net : Settled) (w : World) :
    getJobsUrl state =
      jobsUrl state.page state.filterByStatus state.filterByJobType state.sort state.search ∧
    (requestsBy (getJobs state net) w).map (fun q => (q.method, q.url)) =
      [("GET", jobsUrl state.page state.filterByStatus state.filterByJobType state.sort
        state.search)] := by
  refine ⟨getJobsUrl_eq state, ?_⟩
  rw [← getJobsUrl_eq state]
  cases net with
  | fulfilled r =>
    obtain ⟨status, data, headers⟩ := r
    cases data <;>
      simp [requestsBy, getJobs, tryCatchFinally, run_bind, run_pure, dispatch, authFetch,
        logoutUser, removeUserFromLocalStorage, removeItem, throwJS, hideAlert,
        setTimeoutDispatch, getProp, liftExcept, JSValue.get]
  | rejected e =>
    cases e with
    | axiosError r =>
      cases r with
      | none =>
        simp [requestsBy, getJobs, tryCatchFinally, run_bind, run_pure, dispatch, authFetch,
          responseInterceptorError, errorStatus, Thrown.response, logoutUser,
          removeUserFromLocalStorage, removeItem, throwJS, hideAlert, setTimeoutDispatch]
      | some r =>
        by_cases h : r.status = 401 <;>
        simp [requestsBy, getJobs, tryCatchFinally, run_bind, run_pure, dispatch, authFetch,
          responseInterceptorError, errorStatus, Thrown.response, logoutUser,
          removeUserFromLocalStorage, removeItem, throwJS, hideAlert, setTimeoutDispatch, h]
    | _ =>
      simp [requestsBy, getJobs, tryCatchFinally, run_bind, run_pure, dispatch, authFetch,
        responseInterceptorError, errorStatus, Thrown.response, logoutUser,
        removeUserFromLocalStorage, removeItem, throwJS, hideAlert, setTimeoutDispatch]

/-- C8: however the request of `getJobs`, `deleteJob` or `getStatistics` fails (any status, or
no response at all), the run dispatches `LOGOUT_USER`, leaves the `user`, `token` and
`location` entries absent, and completes without throwing. -/
theorem failure_forces_logout (d : Dispatcher) (state : AppState) (e : Thrown) (w : World)
    (hd : d = .getJobs ∨ (∃ id netJobs, d = .deleteJob id netJobs) ∨ d = .getStatistics) :
    let run := d.run state (.rejected e)
    (run w).1 = .ok () ∧
    hasType .LOGOUT_USER (dispatchedBy run w) = true ∧
    (run w).2.localStorage.getItem "user" = .null ∧
    (run w).2.localStorage.getItem "token" = .null ∧
    (run w).2.localStorage.getItem "location" = .null := by
  rcases hd with hd | ⟨id, netJobs, hd⟩ | hd <;> subst hd <;>
    (cases e with
    | axiosError r =>
      cases r with
      | none =>
        simp [Dispatcher.run, dispatchedBy, hasType, getJobs, deleteJob, getStatistics,
          tryCatchFinally, tryCatch, run_bind, run_pure, dispatch, authFetch,
          responseInterceptorError, errorStatus, Thrown.response, logoutUser,
          removeUserFromLocalStorage, removeItem, throwJS, hideAlert, setTimeoutDispatch,
          Storage.getItem, Storage.removeItem, lookupKey_removeKey]
      | some r =>
        by_cases h : r.status = 401 <;>
        simp [Dispatcher.run, dispatchedBy, hasType, getJobs, deleteJob, getStatistics,
          tryCatchFinally, tryCatch, run_bind, run_pure, dispatch, authFetch,
          responseInterceptorError, errorStatus, Thrown.response, logoutUser,
          removeUserFromLocalStorage, removeItem, throwJS, hideAlert, setTimeoutDispatch,
          Storage.getItem, Storage.removeItem, lookupKey_removeKey, h]
    | _ =>
      simp [Dispatcher.run, dispatchedBy, hasType, getJobs, deleteJob, getStatistics,
        tryCatchFinally, tryCatch, run_bind, run_pure, dispatch, authFetch,
        responseInterceptorError, errorStatus, Thrown.response, logoutUser,
        removeUserFromLocalStorage, removeItem, throwJS, hideAlert, setTimeoutDispatch,
        Storage.getItem, Storage.removeItem, lookupKey_removeKey])

/-- Witness of C8: `getStatistics` failing without any response. -/
theorem failure_forces_logout_witness :
    (Dispatcher.getStatistics = .getJobs ∨
      (∃ id netJobs, Dispatcher.getStatistics = .deleteJob id netJobs) ∨
      Dispatcher.getStatistics = .getStatistics) ∧
    (let run := Dispatcher.getStatistics.run loggedOutState (.rejected (.axiosError none))
    (run sessionWorld).1 = .ok () ∧
    hasType .LOGOUT_USER (dispatchedBy run sessionWorld) = true ∧
    (run sessionWorld).2.localStorage.getItem "user" = .null ∧
    (run sessionWorld).2.localStorage.getItem "token" = .null ∧
    (run sessionWorld).2.localStorage.getItem "location" = .null) :=
  ⟨Or.inr (Or.inr rfl), failure_forces_logout _ _ _ _ (Or.inr (Or.inr rfl))⟩

/-- C9: when the `POST` of `setupUser` fails with an error body carrying the message `m`, the
run completes normally, dispatches exactly `USER_OPERATION_BEGIN` then `USER_OPERATION_ERROR`
with `msg = m` (so neither `USER_OPERATION_SUCCESS` nor `LOGOUT_USER`), and leaves the storage
as it was. -/
theorem setupUser_failure_trace (currentUser : JSValue) (endpoint : Primitive)
    (alertText : JSValue) (status : Nat)
    (fields : List (String × JSValue)) (headers : List (String × String)) (m : String)
    (w : World) (hm : lookupKey "message" fields = some (.str m)) :
    let run := setupUser currentUser endpoint alertText
      (.rejected (.axiosError (some ⟨status, .obj fields, headers⟩)))
    (run w).1 = .ok () ∧
    dispatchedBy run w =
      [⟨.USER_OPERATION_BEGIN, .undefined⟩, ⟨.USER_OPERATION_ERROR, .obj [("msg", .str m)]⟩] ∧
    hasType .USER_OPERATION_SUCCESS (dispatchedBy run w) = false ∧
    hasType .LOGOUT_USER (dispatchedBy run w) = false ∧
    (run w).2.localStorage = w.localStorage := by
  simp [dispatchedBy, hasType, setupUser, tryCatchFinally, run_bind, run_pure, dispatch,
    errorMessage, Thrown.response, throwJS, hideAlert, setTimeoutDispatch, axiosPost, getProp,
    liftExcept, JSValue.get, toStringJS, hm, toStr, toStrChars]

/-- Witness of C9: a login refused with the message `Invalid Credentials`. -/
theorem setupUser_failure_trace_witness :
    lookupKey "message" [("message", JSValue.str "Invalid Credentials")] =
      some (.str "Invalid Credentials") ∧
    (let run := setupUser (.obj []) (.str "login") (.str "Login Successful!")
      (.rejected (.axiosError (some ⟨401, .obj [("message", .str "Invalid Credentials")], []⟩)))
    (run sessionWorld).1 = .ok () ∧
    dispatchedBy run sessionWorld =
      [⟨.USER_OPERATION_BEGIN, .undefined⟩,
        ⟨.USER_OPERATION_ERROR, .obj [("msg", .str "Invalid Credentials")]⟩] ∧
    hasType .USER_OPERATION_SUCCESS (dispatchedBy run sessionWorld) = false ∧
    hasType .LOGOUT_USER (dispatchedBy run sessionWorld) = false ∧
    (run sessionWorld).2.localStorage = sessionWorld.localStorage) :=
  ⟨rfl, setupUser_failure_trace _ _ _ _ _ _ _ _ rfl⟩

/-- C10: when the request of `getJobs`, `deleteJob` or `getStatistics` fails with status 401,
`logoutUser` runs twice, once in the response interceptor and once in the handler of the
dispatcher: the interceptor dispatches one `LOGOUT_USER`, the whole run dispatches two, the
storage at the end is the one two successive `logoutUser` produce, and a second `logoutUser`
leaves the storage as the first one left it. -/
theorem unauthorized_logs_out_twice (d : Dispatcher) (state : AppState) (r : Response) (w : World)
    (hd : d = .getJobs ∨ (∃ id netJobs, d = .deleteJob id netJobs) ∨ d = .getStatistics)
    (h : r.status = 401) :
    let run := d.run state (.rejected (.axiosError (some r)))
    countType .LOGOUT_USER (dispatchedBy (responseInterceptorError (.axiosError (some r))) w) = 1 ∧
    countType .LOGOUT_USER (dispatchedBy run w) = 2 ∧
    (run w).2.localStorage = (logoutUser (logoutUser w).2).2.localStorage ∧
    (logoutUser (logoutUser w).2).2.localStorage = (logoutUser w).2.localStorage := by
  have hrem := @removeKey_removeKey String
  have hcomm := @removeKey_comm String
  have hidem : ∀ l : Storage,
      removeKey "location" (removeKey "token" (removeKey "user"
        (removeKey "location" (removeKey "token" (removeKey "user" l))))) =
      removeKey "location" (removeKey "token" (removeKey "user" l)) := by
    intro l
    rw [hcomm "user" "location", hcomm "user" "token", hrem "user", hcomm "token" "location",
      hrem "token", hrem "location"]
  rcases hd with hd | ⟨id, netJobs, hd⟩ | hd <;> subst hd <;>
    simp [Dispatcher.run, dispatchedBy, countType, getJobs, deleteJob, getStatistics,
      tryCatchFinally, tryCatch, run_bind, run_pure, dispatch, authFetch,
      responseInterceptorError, errorStatus, Thrown.response, logoutUser,
      removeUserFromLocalStorage, removeItem, throwJS, hideAlert, setTimeoutDispatch,
      Storage.removeItem, h, hidem]

/-- Witness of C10: `getJobs` refused with status 401 on a world holding a session. -/
theorem unauthorized_logs_out_twice_witness :
    (Dispatcher.getJobs = .getJobs ∨ (∃ id netJobs, Dispatcher.getJobs = .deleteJob id netJobs) ∨
      Dispatcher.getJobs = .getStatistics) ∧
    (Response.mk 401 (.obj [("message", .str "Authentication Invalid")]) []).status = 401 ∧
    (let run := Dispatcher.getJobs.run loggedOutState (.rejected (.axiosError
      (some (Response.mk 401 (.obj [("message", .str "Authentication Invalid")]) []))))
    countType .LOGOUT_USER (dispatchedBy (responseInterceptorError (.axiosError
      (some (Response.mk 401 (.obj [("message", .str "Authentication Invalid")]) []))))
      sessionWorld) = 1 ∧
    countType .LOGOUT_USER (dispatchedBy run sessionWorld) = 2 ∧
    (run sessionWorld).2.localStorage = (logoutUser (logoutUser sessionWorld).2).2.localStorage ∧
    (logoutUser (logoutUser sessionWorld).2).2.localStorage =
      (logoutUser sessionWorld).2.localStorage) :=
  ⟨Or.inl rfl, rfl, unauthorized_logs_out_twice _ _ _ _ (Or.inl rfl) rfl⟩

theorem lookupKey_setKey {α : Type} (k k1 : String) (v : α) (l : List (String × α)) :
    lookupKey k (setKey k1 v l) = if k1 = k then some v else lookupKey k l := by
  induction l with
  | nil => simp [setKey, lookupKey]
  | cons p rest ih =>
    obtain ⟨a, b⟩ := p
    by_cases h1 : a = k1 <;> by_cases h2 : k1 = k <;> by_cases h3 : a = k <;>
      simp_all [setKey, lookupKey]

theorem toStr_str (s : String) : toStr (.str s) = .ok s := rfl

/-- C4 fails as stated: a payload whose token is `null` or `undefined` (the `token` header
missing from the response) is stored as the text `null` or `undefined`, and a fresh load seeds
the session with that text, not with the token of the payload. -/
theorem token_not_restored :
    (∃ s, initialState (addUserToLocalStorage
        (.obj [("user", .obj [("name", .str "Ana")]), ("token", .null), ("location", .str "")])
        sessionWorld).2.localStorage = .ok s ∧ s.token = .str "null") ∧
    (∃ s, initialState (addUserToLocalStorage
        (.obj [("user", .obj [("name", .str "Ana")]), ("token", .undefined),
          ("location", .str "")])
        sessionWorld).2.localStorage = .ok s ∧ s.token = .str "undefined") :=
  ⟨⟨_, rfl, rfl⟩, ⟨_, rfl, rfl⟩⟩

/-- What a fresh `initialState` holds after `addUserToLocalStorage` wrote a JSON user, a string
token and a string location. -/
theorem initialState_after_add (w : World) (user : JSValue) (token location : String)
    (hu : isJson user = true) :
    ∃ s, initialState (addUserToLocalStorage
        (.obj [("user", user), ("token", .str token), ("location", .str location)])
        w).2.localStorage = .ok s ∧
      s.user = user ∧ s.token = .str token ∧ s.userLocation = .str location := by
  obtain ⟨t, ht, hne, hp⟩ := parse_stringify user hu
  have hl : jsOr (.str location) (.str "") = .str location := by
    by_cases h : location = "" <;> simp [jsOr, Primitive.truthy, h]
  simp [addUserToLocalStorage, run_bind, run_pure, getProp, liftExcept, JSValue.get, setItem,
    lookupKey, ht, initialState, initialStateWith, Storage.getItem, Storage.setItem,
    lookupKey_setKey, toStr_str, Primitive.truthy, Primitive.toStr, hne, hp, stateLiteral, hl]

/-- C4, amended: for a payload whose user is a JSON value and whose token and location are
strings, `addUserToLocalStorage` followed by a fresh computation of `initialState` gives a
session with the user, the token and the location of the payload. -/
theorem session_round_trip (w : World) (user : JSValue) (token location : String)
    (hu : isJson user = true) :
    ∃ s, initialState (addUserToLocalStorage
        (.obj [("user", user), ("token", .str token), ("location", .str location)])
        w).2.localStorage = .ok s ∧
      s.user = user ∧ s.token = .str token ∧ s.userLocation = .str location := by
  obtain ⟨t, ht, hne, hp⟩ := parse_stringify user hu
  have hl : jsOr (.str location) (.str "") = .str location := by
    by_cases h : location = "" <;> simp [jsOr, Primitive.truthy, h]
  simp [addUserToLocalStorage, run_bind, run_pure, getProp, liftExcept, JSValue.get, setItem,
    lookupKey, ht, initialState, initialStateWith, Storage.getItem, Storage.setItem,
    lookupKey_setKey, toStr_str, Primitive.truthy, Primitive.toStr, hne, hp, stateLiteral, hl]

/-- Witness of C4: the session of a user named Ana, written over an older one. -/
theorem session_round_trip_witness :
    isJson (.obj [("name", .str "Ana"), ("location", .str "Cluj")]) = true ∧
    ∃ s, initialState (addUserToLocalStorage
        (.obj [("user", .obj [("name", .str "Ana"), ("location", .str "Cluj")]),
          ("token", .str "abc"), ("location", .str "Cluj")])
        sessionWorld).2.localStorage = .ok s ∧
      s.user = .obj [("name", .str "Ana"), ("location", .str "Cluj")] ∧
      s.token = .str "abc" ∧ s.userLocation = .str "Cluj" :=
  ⟨rfl, session_round_trip _ _ _ _ rfl⟩

/-- C5 fails as stated: a `user` entry that is not JSON makes the computation of `initialState`
throw a `SyntaxError`, and with a valid `user` entry and no `token` entry the seeded session
still has its user. -/
theorem initialState_throws_on_corrupt_user :
    initialState [("user", "oops"), ("token", "abc")] = .error .syntaxError ∧
    (∃ s, initialState [("user", "\x7b\"name\":\"Ana\"\x7d")] = .ok s ∧
      s.token = .null ∧ s.user = .obj [("name", .str "Ana")]) :=
  ⟨rfl, ⟨_, rfl, rfl, rfl⟩⟩

/-- C5, amended: whatever function `JSON.parse` is, when the `user` entry is absent, empty or a
text that it accepts, computing `initialState` does not throw.  The token of the seeded session
is the `token` entry exactly as stored, whatever it holds, and `null` when it is absent; the
user is `null` when the `user` entry is absent or empty, and the parsed value otherwise. -/
theorem initialState_succeeds (parse : String → Except Thrown JSValue) (ls : Storage)
    (h : lookupKey "user" ls = none ∨ lookupKey "user" ls = some "" ∨
      ∃ u v, lookupKey "user" ls = some u ∧ parse u = .ok v) :
    ∃ s, initialStateWith parse ls = .ok s ∧ s.token = ls.getItem "token" ∧
      (lookupKey "token" ls = none → s.token = .null) ∧
      (lookupKey "user" ls = none ∨ lookupKey "user" ls = some "" → s.user = .null) ∧
      (∀ u v, lookupKey "user" ls = some u → u ≠ "" → parse u = .ok v → s.user = v) := by
  have ht : lookupKey "token" ls = none → ls.getItem "token" = .null := by
    intro h0; simp [Storage.getItem, h0]
  rcases h with h | h | ⟨u, v, h, hp⟩
  · refine ⟨stateLiteral .null (ls.getItem "token") (ls.getItem "location"), ?_, rfl, ht,
      fun _ => rfl, fun u v hu => ?_⟩
    · simp [initialStateWith, Storage.getItem, h, Primitive.truthy]
    · rw [h] at hu; cases hu
  · refine ⟨stateLiteral .null (ls.getItem "token") (ls.getItem "location"), ?_, rfl, ht,
      fun _ => rfl, fun u v hu hne => ?_⟩
    · simp [initialStateWith, Storage.getItem, h, Primitive.truthy]
    · rw [h] at hu; exact absurd (Option.some.inj hu).symm hne
  · by_cases hu : u = ""
    · subst hu
      refine ⟨stateLiteral .null (ls.getItem "token") (ls.getItem "location"), ?_, rfl, ht,
        fun _ => rfl, fun u v hu hne => ?_⟩
      · simp [initialStateWith, Storage.getItem, h, Primitive.truthy]
      · rw [h] at hu; exact absurd (Option.some.inj hu).symm hne
    · refine ⟨stateLiteral v (ls.getItem "token") (ls.getItem "location"), ?_, rfl, ht,
        fun hx => ?_, fun u1 v1 hu1 _ hp1 => ?_⟩
      · simp [initialStateWith, Storage.getItem, h, Primitive.truthy, Primitive.toStr, hu, hp]
      · rcases hx with hx | hx
        · rw [h] at hx; cases hx
        · rw [h] at hx; exact absurd (Option.some.inj hx) hu
      · rw [h] at hu1
        cases hu1
        rw [hp] at hp1
        cases hp1
        rfl

/-- Witness of C5: a storage holding the JSON text of a user and a token that is no token, read
with the modelled `JSON.parse`. -/
theorem initialState_succeeds_witness :
    (lookupKey "user" staleStorage = none ∨ lookupKey "user" staleStorage = some "" ∨
      ∃ u v, lookupKey "user" staleStorage = some u ∧ JSON.parse u = .ok v) ∧
    ∃ s, initialStateWith JSON.parse staleStorage = .ok s ∧
      s.token = staleStorage.getItem "token" ∧
      (lookupKey "token" staleStorage = none → s.token = .null) ∧
      (lookupKey "user" staleStorage = none ∨ lookupKey "user" staleStorage = some "" →
        s.user = .null) ∧
      (∀ u v, lookupKey "user" staleStorage = some u → u ≠ "" → JSON.parse u = .ok v →
        s.user = v) :=
  ⟨Or.inr (Or.inr ⟨_, _, rfl, rfl⟩),
    initialState_succeeds JSON.parse _ (Or.inr (Or.inr ⟨_, _, rfl, rfl⟩))⟩

/-- C6 fails as stated: a storage holding a `token` entry and no `user` entry seeds a session
whose token is not `null` and whose user is `null`. -/
theorem token_without_user :
    ∃ s, initialState [("token", "abc")] = .ok s ∧ s.token = .str "abc" ∧ s.user = .null :=
  ⟨_, rfl, rfl, rfl⟩

/-- C6, amended: on a storage as the provider leaves it, the seeded session has a token exactly
when it has a user: after `removeUserFromLocalStorage` both are `null`, and after
`addUserToLocalStorage` of a payload with a string token and a JSON user other than `null`
neither is. -/
theorem token_iff_user (w : World) (user : JSValue) (token location : String)
    (hu : isJson user = true) (hn : user ≠ .null) :
    (∃ s, initialState (removeUserFromLocalStorage w).2.localStorage = .ok s ∧
      s.token = .null ∧ s.user = .null ∧ (s.token ≠ .null ↔ s.user ≠ .null)) ∧
    (∃ s, initialState (addUserToLocalStorage
        (.obj [("user", user), ("token", .str token), ("location", .str location)])
        w).2.localStorage = .ok s ∧
      s.token = .str token ∧ s.user = user ∧ (s.token ≠ .null ↔ s.user ≠ .null)) := by
  constructor
  · refine ⟨stateLiteral .null .null .null, ?_, rfl, rfl, by simp [stateLiteral]⟩
    simp [removeUserFromLocalStorage, run_bind, removeItem, initialState, initialStateWith,
      Storage.getItem, Storage.removeItem, lookupKey_removeKey, Primitive.truthy]
  · obtain ⟨s, hs, h1, h2, _⟩ := initialState_after_add w user token location hu
    exact ⟨s, hs, h2, h1, by simp [h1, h2, hn]⟩

/-- Witness of C6: the session of a user named Ana. -/
theorem token_iff_user_witness :
    isJson (.obj [("name", .str "Ana")]) = true ∧
    JSValue.obj [("name", .str "Ana")] ≠ .null ∧
    (∃ s, initialState (removeUserFromLocalStorage sessionWorld).2.localStorage = .ok s ∧
      s.token = .null ∧ s.user = .null ∧ (s.token ≠ .null ↔ s.user ≠ .null)) ∧
    (∃ s, initialState (addUserToLocalStorage
        (.obj [("user", .obj [("name", .str "Ana")]), ("token", .str "abc"),
          ("location", .str "Cluj")])
        sessionWorld).2.localStorage = .ok s ∧
      s.token = .str "abc" ∧ s.user = .obj [("name", .str "Ana")] ∧
      (s.token ≠ .null ↔ s.user ≠ .null)) :=
  ⟨rfl, nofun, token_iff_user _ _ _ _ rfl nofun⟩

end Jobify
